import Mathlib

/-!
Verification of the OptiCloud tiered-storage migration engine.

Shallow embedding of the relevant parts of the repository:
- `src/opticloud_server/models/File.js` (the per-tier record schema and
  `getFileModelByTier` / `getAllFileModels`),
- `src/opticloud_server/services/migrationService.js` (`lockFile`,
  `unlockFile`, `migrateFile`, `recoverStuckMigrations`),
- the decision engine (`evaluateTier`, `shouldMigrate`,
  `getFilesForMigration`).

MongoDB collections are modelled as lists of records; the three tier
collections `HotTierFiles` / `WarmTierFiles` / `ColdTierFiles` form a
`StoreState`.  Mongo's id generator is modelled by a `nextId` counter.
The content digest (`calculateBufferHash`, MD5 over the Base64-decoded
payload) is kept abstract as a function parameter `hash : String → String`
applied to the stored `fileData` string.  The backing store's write path
may corrupt data between `save` and the re-read performed by the
post-copy verification step; this is modelled by a second function
parameter `wr : String → String` applied to `fileData` when a copied
document is saved (`wr = id` is the honest backend).
-/

namespace OptiCloud

/-- `migrationStatus` enum of the File schema (`File.js`). -/
inductive Status
  | IDLE
  | PROCESSING
  | VERIFYING
  | FAILED
deriving DecidableEq, Repr

/-- The three tier collections (`HotTierFile`, `WarmTierFile`, `ColdTierFile`). -/
inductive Tier
  | HOT
  | WARM
  | COLD
deriving DecidableEq, Repr

/-- One document of a tier collection (the File schema of `File.js`).
Dates are milliseconds since epoch; `fileData` is the Base64 payload
string; `id` models the Mongo `_id`. -/
structure FileRec where
  id : Nat
  fileName : String
  originalFileName : String
  fileData : String
  size : Nat
  checksum : Option String
  sourceChecksumBeforeMigration : Option String
  targetChecksumAfterMigration : Option String
  contentType : String
  isLocked : Bool
  migrationStatus : Status
  retryAttempts : Nat
  lastMigrationDate : Option Nat
  lastAccessDate : Option Nat
  uploadDate : Nat
  createdAt : Nat
deriving DecidableEq, Repr

/-- The whole backing store: one collection per tier, plus the id
generator and the `MigrationStats` counter (`incrementMigrationCount`). -/
structure StoreState where
  hot : List FileRec
  warm : List FileRec
  cold : List FileRec
  nextId : Nat
  migrationCount : Nat
deriving DecidableEq, Repr

/-- The collection belonging to a tier. -/
def StoreState.part (s : StoreState) : Tier → List FileRec
  | Tier.HOT => s.hot
  | Tier.WARM => s.warm
  | Tier.COLD => s.cold

/-- Replace the collection of one tier, leaving everything else alone. -/
def StoreState.setPart (s : StoreState) : Tier → List FileRec → StoreState
  | Tier.HOT, l => { s with hot := l }
  | Tier.WARM, l => { s with warm := l }
  | Tier.COLD, l => { s with cold := l }

/-! ### Collection primitives

`findById` / `findByIdAndUpdate` / `findByIdAndDelete` of Mongoose.
`findByIdAndUpdate` can never change `_id` (immutable in MongoDB), and
ids are unique per collection, so updating / deleting every record whose
id matches is the same operation. -/

/-- `Model.findById`. -/
def findById (l : List FileRec) (i : Nat) : Option FileRec :=
  l.find? (fun r => r.id == i)

/-- Apply a field patch to the record(s) with the given id. -/
def updateById (l : List FileRec) (i : Nat) (p : FileRec → FileRec) : List FileRec :=
  l.map (fun r => if r.id == i then p r else r)

/-- `Model.findByIdAndDelete`. -/
def deleteById (l : List FileRec) (i : Nat) : List FileRec :=
  l.filter (fun r => r.id != i)

/-- `Model.findByIdAndUpdate(id, patch, ⟨new: true⟩)`: returns the
post-update document (or `none` when absent) together with the new
store. -/
def findByIdAndUpdate (s : StoreState) (t : Tier) (i : Nat) (p : FileRec → FileRec) :
    Option FileRec × StoreState :=
  match findById (s.part t) i with
  | none => (none, s)
  | some r => (some (p r), s.setPart t (updateById (s.part t) i p))

/-- State after a `findByIdAndUpdate`, discarding the returned document. -/
def updRec (s : StoreState) (t : Tier) (i : Nat) (p : FileRec → FileRec) : StoreState :=
  (findByIdAndUpdate s t i p).2

/-- State after a `findByIdAndDelete`. -/
def delRec (s : StoreState) (t : Tier) (i : Nat) : StoreState :=
  s.setPart t (deleteById (s.part t) i)

/-- `new Model(fields); doc.save()`: append a document to a collection. -/
def insRec (s : StoreState) (t : Tier) (r : FileRec) : StoreState :=
  s.setPart t (s.part t ++ [r])

/-! ### Tier resolution (`File.js`)

`getFileModelByTier` is a `switch` whose `default` arm returns the HOT
model; `getAllFileModels` returns `[Hot, Warm, Cold]`, which is the
iteration order of every scan. -/

/-- `getFileModelByTier(tier)` of `File.js`. -/
def getFileModelByTier (tier : String) : Tier :=
  if tier = "HOT" then Tier.HOT
  else if tier = "WARM" then Tier.WARM
  else if tier = "COLD" then Tier.COLD
  else Tier.HOT

/-- `getAllFileModels()` paired with the `tierNames` array used beside it. -/
def getAllFileModels : List Tier := [Tier.HOT, Tier.WARM, Tier.COLD]

/-! ### Decision engine (`services/decisionEngine.js`)

`getDaysSinceAccess` returns `Infinity` for a missing date and otherwise
`Math.ceil(|now - lastAccessDate| / DAY_MS)`.  Days are therefore
modelled as `Option Nat` with `none` standing for `Infinity`; in
`evaluateTier` the `Infinity` value fails both upper-bound comparisons
and falls through to the `else` branch, i.e. COLD. -/

/-- Milliseconds per day, the divisor in `getDaysSinceAccess`. -/
def DAY_MS : Nat := 1000 * 60 * 60 * 24

/-- `getDaysSinceAccess(lastAccessDate)`; `none` models `Infinity`. -/
def getDaysSinceAccess (now : Nat) : Option Nat → Option Nat
  | none => none
  | some t => some ((max now t - min now t + (DAY_MS - 1)) / DAY_MS)

/-- The `TIER_RULES` thresholds of the decision engine. -/
def HOT_MAX_DAYS : Nat := 30
def WARM_MIN_DAYS : Nat := 31
def WARM_MAX_DAYS : Nat := 90

/-- `evaluateTier(file)` of the decision engine: classify by days since
last access.  The `none` (`Infinity`) case fails `d ≤ 30` and
`31 ≤ d ∧ d ≤ 90` alike and lands in the `else` branch. -/
def evaluateTier (now : Nat) (lastAccessDate : Option Nat) : Tier :=
  match getDaysSinceAccess now lastAccessDate with
  | none => Tier.COLD
  | some d =>
    if d ≤ HOT_MAX_DAYS then Tier.HOT
    else if WARM_MIN_DAYS ≤ d ∧ d ≤ WARM_MAX_DAYS then Tier.WARM
    else Tier.COLD

/-- Return value of `shouldMigrate` (the `reason` string is omitted). -/
structure Decision where
  shouldMigrate : Bool
  targetTier : Tier
deriving DecidableEq, Repr

/-- `shouldMigrate(file)` of the decision engine, with the file's
`currentTier` passed explicitly. -/
def shouldMigrate (now : Nat) (r : FileRec) (currentTier : Tier) : Decision :=
  let t := evaluateTier now r.lastAccessDate
  if t ≠ currentTier then ⟨true, t⟩ else ⟨false, currentTier⟩

/-- One emitted element of `getFilesForMigration`. -/
structure Candidate where
  file : FileRec
  currentTier : Tier
  targetTier : Tier
deriving DecidableEq, Repr

/-- The per-tier body of `getFilesForMigration`: query
`⟨migrationStatus: IDLE, isLocked: false⟩`, then keep the files whose
decision says to migrate. -/
def candidatesOf (now : Nat) (t : Tier) (l : List FileRec) : List Candidate :=
  (l.filter (fun r => r.migrationStatus == Status.IDLE && !r.isLocked)).filterMap
    (fun r =>
      let d := shouldMigrate now r t
      if d.shouldMigrate then some ⟨r, t, d.targetTier⟩ else none)

/-- `getFilesForMigration(FileModels)`: scan HOT, WARM, COLD in order. -/
def getFilesForMigration (now : Nat) (s : StoreState) : List Candidate :=
  candidatesOf now Tier.HOT (s.part Tier.HOT)
    ++ candidatesOf now Tier.WARM (s.part Tier.WARM)
    ++ candidatesOf now Tier.COLD (s.part Tier.COLD)

/-! ### Migration service (`services/migrationService.js`)

Every `throw new Error(...)` site of the service gets one constructor.
There is no constructor for an already-held lock: `lockFile` performs an
unconditional `findByIdAndUpdate` filtered by `_id` only, so its single
failure mode is `File not found`. -/

inductive MigErr
  /-- `File not found: ... in ... tier` (`lockFile`). -/
  | notFound
  /-- `File data is missing` (`verifyFileIntegrity` on a falsy payload). -/
  | missingData
  /-- `Source file integrity check failed: stored checksum ... does not
  match calculated ...` (step 3). -/
  | sourceIntegrityFailed
  /-- `Checksum mismatch after migration` (step 6). -/
  | checksumMismatch
  /-- Reading back a document the service itself just wrote failed; in
  the JS this would surface as a TypeError inside the same `try`. -/
  | internal
  /-- `Migration failed after 3 attempts: ...` wrapping the original
  error. -/
  | maxRetriesExceeded (inner : MigErr)
deriving DecidableEq, Repr

/-- `MAX_RETRY_ATTEMPTS` of the migration service. -/
def MAX_RETRY_ATTEMPTS : Nat := 3

/-- `lockFile(fileId, currentTier)` on an already-resolved tier: an
unconditional atomic update setting `isLocked` and `migrationStatus`,
returning the post-update document.  Note there is no `isLocked: false`
precondition in the query — the update matches on `_id` alone. -/
def lockCore (s : StoreState) (fileId : Nat) (t : Tier) :
    Except MigErr FileRec × StoreState :=
  match findByIdAndUpdate s t fileId
      (fun r => { r with isLocked := true, migrationStatus := Status.PROCESSING }) with
  | (none, s1) => (Except.error MigErr.notFound, s1)
  | (some file, s1) => (Except.ok file, s1)

/-- `lockFile(fileId, currentTier)` of the migration service. -/
def lockFile (s : StoreState) (fileId : Nat) (currentTier : String) :
    Except MigErr FileRec × StoreState :=
  lockCore s fileId (getFileModelByTier currentTier)

/-- `unlockFile(fileId, tier, status)` on an already-resolved tier. -/
def unlockCore (s : StoreState) (fileId : Nat) (t : Tier) (status : Status) : StoreState :=
  updRec s t fileId (fun r => { r with isLocked := false, migrationStatus := status })

/-- `unlockFile(fileId, tier, status)` of the migration service. -/
def unlockFile (s : StoreState) (fileId : Nat) (tier : String) (status : Status) : StoreState :=
  unlockCore s fileId (getFileModelByTier tier) status

/-- The step-3 comparison `file.checksum && sourceHashBefore !==
file.checksum`: a missing or empty (falsy) stored checksum skips the
check. -/
def checksumMismatchPre (stored : Option String) (h : String) : Bool :=
  match stored with
  | some c => c != "" && c != h
  | none => false

/-- The `catch` block of `migrateFile`: best-effort delete of a
partially created target document, then retry bookkeeping.  The
increment `file.retryAttempts += 1` happens on the in-memory document
only; neither branch below writes the incremented counter back to the
store. -/
def handleFailure (tgt src : Tier) (fileId : Nat) (newDocId : Option Nat)
    (file : FileRec) (e : MigErr) (s : StoreState) :
    Except MigErr FileRec × StoreState :=
  let s1 := match newDocId with
    | some nid => delRec s tgt nid
    | none => s
  let attempts := file.retryAttempts + 1
  if MAX_RETRY_ATTEMPTS ≤ attempts then
    (Except.error (MigErr.maxRetriesExceeded e),
      updRec s1 src file.id
        (fun r => { r with migrationStatus := Status.FAILED, isLocked := false }))
  else
    (Except.error e, unlockCore s1 fileId src Status.IDLE)

/-- `incrementMigrationCount()` of `MigrationStats.js`. -/
def incrementMigrationCount (s : StoreState) : StoreState :=
  { s with migrationCount := s.migrationCount + 1 }

/-- The store after step 7's writes, in order: commit the target copy
(IDLE, unlocked, both checksums), stamp the source with the target
checksum, delete the source record, count the migration. -/
def commitStates (fileId : Nat) (src tgt : Tier)
    (sourceHashBefore targetHashAfter : String) (newDocId : Nat)
    (s3 : StoreState) : StoreState :=
  incrementMigrationCount
    (delRec
      (updRec
        (updRec s3 tgt newDocId (fun r =>
          { r with migrationStatus := Status.IDLE, isLocked := false,
                   sourceChecksumBeforeMigration := some sourceHashBefore,
                   targetChecksumAfterMigration := some targetHashAfter }))
        src fileId (fun r =>
          { r with targetChecksumAfterMigration := some targetHashAfter }))
      src fileId)

/-- Step 7 of `migrateFile`: perform the commit writes, then reload the
final document. -/
def commitPhase (fileId : Nat) (src tgt : Tier)
    (sourceHashBefore targetHashAfter : String) (newDocId : Nat)
    (s3 : StoreState) : Except MigErr FileRec × StoreState :=
  match findById
      ((commitStates fileId src tgt sourceHashBefore targetHashAfter newDocId s3).part tgt)
      newDocId with
  | some finalFile =>
    (Except.ok finalFile,
      commitStates fileId src tgt sourceHashBefore targetHashAfter newDocId s3)
  | none =>
    (Except.error MigErr.internal,
      commitStates fileId src tgt sourceHashBefore targetHashAfter newDocId s3)

/-- Steps 5–7 of `migrateFile`, entered with the copy already saved:
reload the copy, recompute its digest, compare, and either roll back or
commit. -/
def migrateVerify (hash : String → String) (fileId : Nat) (src tgt : Tier)
    (file : FileRec) (sourceHashBefore : String) (newDocId : Nat)
    (s3 : StoreState) : Except MigErr FileRec × StoreState :=
  match findById (s3.part tgt) newDocId with
  | none => handleFailure tgt src fileId (some newDocId) file MigErr.internal s3
  | some targetFile =>
    if targetFile.fileData = "" then
      handleFailure tgt src fileId (some newDocId) file MigErr.missingData s3
    else
      let targetHashAfter := hash targetFile.fileData
      -- Step 6: compare source and target checksums.
      if sourceHashBefore ≠ targetHashAfter then
        let s4 := delRec s3 tgt newDocId
        let s5 := unlockCore s4 fileId src Status.FAILED
        handleFailure tgt src fileId (some newDocId) file MigErr.checksumMismatch s5
      else
        commitPhase fileId src tgt sourceHashBefore targetHashAfter newDocId s3

/-- The document inserted into the target collection by step 4. -/
def copiedDoc (wr : String → String) (now : Nat) (file : FileRec)
    (sourceHashBefore : String) (newId : Nat) : FileRec :=
  { id := newId
    fileName := file.fileName
    originalFileName := file.originalFileName
    fileData := wr file.fileData
    size := file.size
    checksum := some sourceHashBefore
    sourceChecksumBeforeMigration := some sourceHashBefore
    targetChecksumAfterMigration := none
    contentType := file.contentType
    isLocked := true
    migrationStatus := Status.VERIFYING
    retryAttempts := 0
    lastMigrationDate := some now
    lastAccessDate := file.lastAccessDate
    uploadDate := file.uploadDate
    createdAt := now }

/-- The step-2 write: source to VERIFYING with its recomputed checksum
persisted for observability. -/
def verifyState (hash : String → String) (fileId : Nat) (src : Tier)
    (file : FileRec) (s1 : StoreState) : StoreState :=
  updRec s1 src fileId (fun r =>
    { r with migrationStatus := Status.VERIFYING,
             sourceChecksumBeforeMigration := some (hash file.fileData) })

/-- The step-4 write: save the copied document into the target
collection, consuming a fresh id. -/
def insertState (hash wr : String → String) (now : Nat) (fileId : Nat)
    (src tgt : Tier) (file : FileRec) (s1 : StoreState) : StoreState :=
  { insRec (verifyState hash fileId src file s1) tgt
      (copiedDoc wr now file (hash file.fileData)
        (verifyState hash fileId src file s1).nextId) with
    nextId := (verifyState hash fileId src file s1).nextId + 1 }

/-- Steps 4–7: copy into the target collection, then verify. -/
def copyPhase (hash wr : String → String) (now : Nat) (fileId : Nat)
    (src tgt : Tier) (file : FileRec) (s1 : StoreState) :
    Except MigErr FileRec × StoreState :=
  migrateVerify hash fileId src tgt file (hash file.fileData)
    (copiedDoc wr now file (hash file.fileData)
      (verifyState hash fileId src file s1).nextId).id
    (insertState hash wr now fileId src tgt file s1)

/-- Steps 2–7 of `migrateFile`, entered with the source lock held and
the post-lock document `file` in hand. -/
def migrateLocked (hash wr : String → String) (now : Nat) (fileId : Nat)
    (src tgt : Tier) (file : FileRec) (s1 : StoreState) :
    Except MigErr FileRec × StoreState :=
  -- Step 2: calculate the checksum of the source payload.
  if file.fileData = "" then
    handleFailure tgt src fileId none file MigErr.missingData s1
  -- Step 3: compare with the stored checksum, if present.
  else if checksumMismatchPre file.checksum (hash file.fileData) then
    handleFailure tgt src fileId none file MigErr.sourceIntegrityFailed
      (unlockCore (verifyState hash fileId src file s1) fileId src Status.FAILED)
  else
    copyPhase hash wr now fileId src tgt file s1

/-- `migrateFile(fileId, currentTier, targetTier)` with both tiers
already resolved through `getFileModelByTier` (the JS resolves the same
strings to the same models at each use).  `hash` is the content digest,
`wr` the backend write path applied to the payload when the copied
document is saved, `now` the clock. -/
def migrateCore (hash wr : String → String) (now : Nat) (fileId : Nat)
    (src tgt : Tier) (s : StoreState) : Except MigErr FileRec × StoreState :=
  -- Step 1: lock the file.
  match lockCore s fileId src with
  | (Except.error e, s1) => (Except.error e, s1)
  | (Except.ok file, s1) => migrateLocked hash wr now fileId src tgt file s1

/-- `migrateFile(fileId, currentTier, targetTier)` of the migration
service, taking tier names as the strings the JS receives. -/
def migrateFile (hash wr : String → String) (now : Nat) (fileId : Nat)
    (currentTier targetTier : String) (s : StoreState) :
    Except MigErr FileRec × StoreState :=
  migrateCore hash wr now fileId
    (getFileModelByTier currentTier) (getFileModelByTier targetTier) s

/-! ### Reconciliation (`recoverStuckMigrations`) -/

/-- The stuck-file query
`⟨migrationStatus: ⟨$in: [PROCESSING, VERIFYING]⟩, isLocked: true⟩`. -/
def isStuck (r : FileRec) : Bool :=
  (r.migrationStatus == Status.PROCESSING || r.migrationStatus == Status.VERIFYING)
    && r.isLocked

/-- The duplicate-detection recency window: `10 * 60 * 1000` ms. -/
def TEN_MINUTES : Nat := 10 * 60 * 1000

/-- Option equality as the Mongo equality match on a nullable field. -/
def optEq (a b : Option String) : Bool :=
  a == b

/-- The duplicate query run against another tier for a stuck file `f`:
same `fileName`, an `$or` over three checksum matches, `createdAt`
within the last ten minutes, and a status among
PROCESSING / VERIFYING / IDLE. -/
def isDuplicateOf (now : Nat) (f r : FileRec) : Bool :=
  r.fileName == f.fileName
    && (optEq r.checksum f.checksum
        || optEq r.checksum f.sourceChecksumBeforeMigration
        || optEq r.sourceChecksumBeforeMigration f.sourceChecksumBeforeMigration)
    && (now ≤ r.createdAt + TEN_MINUTES)
    && (r.migrationStatus == Status.PROCESSING
        || r.migrationStatus == Status.VERIFYING
        || r.migrationStatus == Status.IDLE)

/-- The body of the inner `for` over the other tiers: first tier in the
given order whose `findOne` matches. -/
def findDuplicateIn (now : Nat) (s : StoreState) (f : FileRec) :
    List Tier → Option (Tier × FileRec)
  | [] => none
  | j :: js =>
    match (s.part j).find? (isDuplicateOf now f) with
    | some d => some (j, d)
    | none => findDuplicateIn now s f js

/-- The inner `for` over the other tiers: first tier (in HOT, WARM,
COLD order, skipping the source tier) whose `findOne` matches. -/
def findDuplicate (now : Nat) (s : StoreState) (i : Tier) (f : FileRec) :
    Option (Tier × FileRec) :=
  findDuplicateIn now s f (getAllFileModels.filter (fun j => j != i))

/-- What reconciliation reports for one repaired file. -/
inductive RecAction
  | deletedSource (f : FileRec) (dupTier : Tier)
  | resetSource (f : FileRec)
deriving DecidableEq, Repr

/-- Handling of a single stuck file inside the recovery loop. -/
def processStuckFile (now : Nat) (i : Tier) (f : FileRec) (s : StoreState) :
    StoreState × RecAction :=
  if f.migrationStatus == Status.VERIFYING then
    match findDuplicate now s i f with
    | some (j, dup) =>
      -- the copy had landed: delete the stuck source, count the
      -- migration, and force the duplicate to IDLE/unlocked if needed
      let s1 := delRec s i f.id
      let s2 := { s1 with migrationCount := s1.migrationCount + 1 }
      let s3 :=
        if dup.isLocked || dup.migrationStatus != Status.IDLE then
          updRec s2 j dup.id
            (fun r => { r with migrationStatus := Status.IDLE, isLocked := false })
        else s2
      (s3, RecAction.deletedSource f j)
    | none =>
      -- no duplicate: reset the source in place to IDLE/unlocked
      (updRec s i f.id
        (fun r => { r with migrationStatus := Status.IDLE, isLocked := false }),
        RecAction.resetSource f)
  else
    -- PROCESSING: the copy never started, reset in place
    (updRec s i f.id
      (fun r => { r with migrationStatus := Status.IDLE, isLocked := false }),
      RecAction.resetSource f)

/-- The `for (const file of stuckFiles)` loop over one tier's stuck
list. -/
def processList (now : Nat) (i : Tier) : List FileRec → StoreState →
    StoreState × List RecAction
  | [], s => (s, [])
  | f :: fs, s =>
    let step := processStuckFile now i f s
    let rest := processList now i fs step.1
    (rest.1, step.2 :: rest.2)

/-- One iteration of the outer loop: query the tier's stuck files, then
process them. -/
def processTier (now : Nat) (i : Tier) (s : StoreState) :
    StoreState × List RecAction :=
  processList now i ((s.part i).filter isStuck) s

/-- `recoverStuckMigrations()` — the reconciliation pass, scanning HOT,
WARM, COLD in `getAllFileModels` order. -/
def recoverStuckMigrations (now : Nat) (s : StoreState) :
    StoreState × List RecAction :=
  let h := processTier now Tier.HOT s
  let w := processTier now Tier.WARM h.1
  let c := processTier now Tier.COLD w.1
  (c.1, h.2 ++ w.2 ++ c.2)

/-- Per-collection uniqueness of `_id`, as MongoDB guarantees. -/
def NodupIds (l : List FileRec) : Prop :=
  (l.map FileRec.id).Nodup

/-! ### Concrete fixtures for the scenario theorems -/

/-- A steady-state record in the HOT collection: IDLE, unlocked, with a
stored checksum matching its payload under the identity digest used in
the concrete scenarios. -/
def sampleRec : FileRec :=
  { id := 1
    fileName := "a.txt"
    originalFileName := "a.txt"
    fileData := "DATA"
    size := 4
    checksum := some "DATA"
    sourceChecksumBeforeMigration := none
    targetChecksumAfterMigration := none
    contentType := "text/plain"
    isLocked := false
    migrationStatus := Status.IDLE
    retryAttempts := 0
    lastMigrationDate := none
    lastAccessDate := some 0
    uploadDate := 0
    createdAt := 0 }

/-- `sampleRec` already locked by another migration actor. -/
def lockedRec : FileRec :=
  { sampleRec with isLocked := true, migrationStatus := Status.PROCESSING }

/-- A store whose HOT collection holds only the locked record. -/
def lockedState : StoreState :=
  { hot := [lockedRec], warm := [], cold := [], nextId := 2, migrationCount := 0 }

/-- `sampleRec` with a stored checksum that does not match its payload:
every migration attempt on it fails the step-3 integrity check. -/
def badChecksumRec : FileRec :=
  { sampleRec with checksum := some "WRONG" }

/-- A store whose HOT collection holds only the corrupted record. -/
def badChecksumState : StoreState :=
  { hot := [badChecksumRec], warm := [], cold := [], nextId := 2, migrationCount := 0 }

/-- One scheduled migration attempt HOT → WARM on file 1, with the
identity digest and the honest backend; returns the resulting store. -/
def attemptStep (s : StoreState) : StoreState :=
  (migrateFile (fun d => d) (fun d => d) 1000 1 "HOT" "WARM" s).2

/-- The crash scenario's stuck source: still locked in VERIFYING after
a crash between target-commit and source-delete. -/
def stuckSrcRec : FileRec :=
  { sampleRec with
    isLocked := true
    migrationStatus := Status.VERIFYING
    sourceChecksumBeforeMigration := some "DATA" }

/-- The crash scenario's committed target copy: same logical file,
matching checksum, created within the recency window, already IDLE and
unlocked. -/
def committedTgtRec : FileRec :=
  { sampleRec with
    id := 5
    sourceChecksumBeforeMigration := some "DATA"
    targetChecksumAfterMigration := some "DATA"
    lastMigrationDate := some 900
    createdAt := 900 }

/-- The store left behind by the crash: both partitions hold a verified
copy of the same object. -/
def sCrash : StoreState :=
  { hot := [stuckSrcRec], warm := [committedTgtRec], cold := [],
    nextId := 6, migrationCount := 7 }

/-- A steady-state store: the sample record alone in HOT. -/
def sIdle : StoreState :=
  { hot := [sampleRec], warm := [], cold := [], nextId := 2, migrationCount := 0 }

/-- What `migrateFile` inserts into WARM when migrating `sampleRec`
out of `sIdle` with the identity digest at time 1000. -/
def migratedRec : FileRec :=
  { sampleRec with
    id := 2
    sourceChecksumBeforeMigration := some "DATA"
    targetChecksumAfterMigration := some "DATA"
    lastMigrationDate := some 1000
    createdAt := 1000 }

/-- A record parked FAILED after exhausting its attempt budget. -/
def failedRec : FileRec :=
  { sampleRec with migrationStatus := Status.FAILED }

/-- A store holding only the FAILED record, in the HOT collection. -/
def sFailed : StoreState :=
  { hot := [failedRec], warm := [], cold := [], nextId := 2, migrationCount := 0 }

/-! ## Theorems

Helper facts about the collection primitives and the embedded
operations come first; the claim theorems and their witnesses close the
file. -/

@[simp] theorem part_setPart_self (s : StoreState) (t : Tier) (l : List FileRec) :
    (s.setPart t l).part t = l := by
  cases t <;> rfl

@[simp] theorem part_setPart_ne (s : StoreState) {t u : Tier} (h : u ≠ t) (l : List FileRec) :
    (s.setPart t l).part u = s.part u := by
  cases t <;> cases u <;> first | rfl | exact absurd rfl h

@[simp] theorem nextId_setPart (s : StoreState) (t : Tier) (l : List FileRec) :
    (s.setPart t l).nextId = s.nextId := by
  cases t <;> rfl

@[simp] theorem migrationCount_setPart (s : StoreState) (t : Tier) (l : List FileRec) :
    (s.setPart t l).migrationCount = s.migrationCount := by
  cases t <;> rfl

@[simp] theorem part_setNextId (s : StoreState) (n : Nat) (t : Tier) :
    ({ s with nextId := n } : StoreState).part t = s.part t := by
  cases t <;> rfl

@[simp] theorem part_setCount (s : StoreState) (n : Nat) (t : Tier) :
    ({ s with migrationCount := n } : StoreState).part t = s.part t := by
  cases t <;> rfl

@[simp] theorem nextId_updRec (s : StoreState) (t : Tier) (i : Nat) (p : FileRec → FileRec) :
    (updRec s t i p).nextId = s.nextId := by
  unfold updRec findByIdAndUpdate
  cases findById (s.part t) i <;> simp

@[simp] theorem nextId_delRec (s : StoreState) (t : Tier) (i : Nat) :
    (delRec s t i).nextId = s.nextId := by
  unfold delRec; simp

theorem findById_mem {l : List FileRec} {i : Nat} {r : FileRec}
    (h : findById l i = some r) : r ∈ l ∧ r.id = i := by
  unfold findById at h
  have hm := List.find?_some h
  exact ⟨List.mem_of_find?_eq_some h, by simpa using hm⟩

/-- Updating with an id-preserving patch rewrites what `findById` sees. -/
theorem findById_updateById_self (l : List FileRec) (i : Nat) (p : FileRec → FileRec)
    (hp : ∀ r, (p r).id = r.id) :
    findById (updateById l i p) i = (findById l i).map p := by
  induction l with
  | nil => rfl
  | cons a l ih =>
    unfold updateById findById at *
    by_cases ha : a.id = i
    · rw [List.map_cons, if_pos (by simpa using ha),
        List.find?_cons_of_pos _ (by simp [hp, ha]),
        List.find?_cons_of_pos _ (by simpa using ha)]
      rfl
    · rw [List.map_cons, if_neg (by simpa using ha),
        List.find?_cons_of_neg _ (by simpa using ha),
        List.find?_cons_of_neg _ (by simpa using ha)]
      exact ih

theorem findById_updateById_ne (l : List FileRec) {i j : Nat} (p : FileRec → FileRec)
    (hp : ∀ r, (p r).id = r.id) (hij : j ≠ i) :
    findById (updateById l i p) j = findById l j := by
  induction l with
  | nil => rfl
  | cons a l ih =>
    unfold updateById findById at *
    by_cases ha : a.id = i
    · rw [List.map_cons, if_pos (by simpa using ha),
        List.find?_cons_of_neg _ (by simp [hp, ha]; exact fun h => hij h.symm),
        List.find?_cons_of_neg _ (by simp [ha]; exact fun h => hij h.symm)]
      exact ih
    · rw [List.map_cons, if_neg (by simpa using ha)]
      by_cases hj : a.id = j
      · rw [List.find?_cons_of_pos _ (by simpa using hj),
          List.find?_cons_of_pos _ (by simpa using hj)]
      · rw [List.find?_cons_of_neg _ (by simpa using hj),
          List.find?_cons_of_neg _ (by simpa using hj)]
        exact ih

@[simp] theorem findById_deleteById_self (l : List FileRec) (i : Nat) :
    findById (deleteById l i) i = none := by
  unfold findById deleteById
  rw [List.find?_eq_none]
  intro r hr
  have := (List.mem_filter.mp hr).2
  simpa using this

theorem findById_deleteById_ne (l : List FileRec) {i j : Nat} (hij : j ≠ i) :
    findById (deleteById l i) j = findById l j := by
  induction l with
  | nil => rfl
  | cons a l ih =>
    unfold deleteById findById at *
    by_cases ha : a.id = i
    · rw [List.filter_cons, if_neg (by simpa using ha),
        List.find?_cons_of_neg _ (by simp [ha]; exact fun h => hij h.symm)]
      exact ih
    · rw [List.filter_cons, if_pos (by simpa using ha)]
      by_cases hj : a.id = j
      · rw [List.find?_cons_of_pos _ (by simpa using hj),
          List.find?_cons_of_pos _ (by simpa using hj)]
      · rw [List.find?_cons_of_neg _ (by simpa using hj),
          List.find?_cons_of_neg _ (by simpa using hj)]
        exact ih

/-- A freshly appended document with an id unseen in the collection is
what a subsequent `findById` returns. -/
theorem findById_append_fresh {l : List FileRec} {d : FileRec}
    (h : ∀ r ∈ l, r.id ≠ d.id) :
    findById (l ++ [d]) d.id = some d := by
  unfold findById
  rw [List.find?_append]
  have hl : l.find? (fun r => r.id == d.id) = none := by
    rw [List.find?_eq_none]
    intro r hr
    simpa using h r hr
  simp [hl]

/-- Deleting an id that does not occur is a no-op. -/
theorem deleteById_eq_of_not_mem {l : List FileRec} {i : Nat}
    (h : ∀ r ∈ l, r.id ≠ i) : deleteById l i = l := by
  unfold deleteById
  rw [List.filter_eq_self]
  intro r hr
  simpa using h r hr

theorem deleteById_append_fresh {l : List FileRec} {d : FileRec} {i : Nat}
    (h : ∀ r ∈ l, r.id ≠ i) (hd : d.id = i) :
    deleteById (l ++ [d]) i = l := by
  unfold deleteById
  rw [List.filter_append]
  have h1 : l.filter (fun r => r.id != i) = l := by
    rw [List.filter_eq_self]; intro r hr; simpa using h r hr
  have h2 : [d].filter (fun r => r.id != i) = [] := by
    simp [hd]
  rw [h1, h2, List.append_nil]

theorem mem_updateById_of_ne {l : List FileRec} {r : FileRec} {i : Nat}
    (hr : r ∈ l) (hne : r.id ≠ i) (p : FileRec → FileRec) :
    r ∈ updateById l i p := by
  unfold updateById
  have : (if r.id == i then p r else r) = r := by
    rw [if_neg (by simpa using hne)]
  exact this ▸ List.mem_map_of_mem _ hr

theorem mem_deleteById_of_ne {l : List FileRec} {r : FileRec} {i : Nat}
    (hr : r ∈ l) (hne : r.id ≠ i) :
    r ∈ deleteById l i := by
  unfold deleteById
  exact List.mem_filter.mpr ⟨hr, by simpa using hne⟩

theorem mem_updateById_elim {l : List FileRec} {r : FileRec} {i : Nat}
    {p : FileRec → FileRec} (h : r ∈ updateById l i p) :
    (r ∈ l ∧ r.id ≠ i) ∨ ∃ r0 ∈ l, r0.id = i ∧ r = p r0 := by
  unfold updateById at h
  obtain ⟨r0, hr0, heq⟩ := List.mem_map.mp h
  by_cases hid : r0.id = i
  · exact Or.inr ⟨r0, hr0, hid, by rw [← heq, if_pos (by simpa using hid)]⟩
  · left
    rw [← heq, if_neg (by simpa using hid)]
    exact ⟨hr0, hid⟩

theorem mem_deleteById_elim {l : List FileRec} {r : FileRec} {i : Nat}
    (h : r ∈ deleteById l i) : r ∈ l ∧ r.id ≠ i := by
  unfold deleteById at h
  have := List.mem_filter.mp h
  exact ⟨this.1, by simpa using this.2⟩

/-- When no record carries the id, an update is the identity. -/
theorem updateById_eq_of_none {l : List FileRec} {i : Nat} (p : FileRec → FileRec)
    (h : findById l i = none) : updateById l i p = l := by
  unfold updateById
  have hall := List.find?_eq_none.mp h
  rw [List.map_congr_left (fun r hr => ?_), List.map_id]
  rw [if_neg (by simpa using hall r hr)]
  rfl

theorem ids_updateById (l : List FileRec) (i : Nat) (p : FileRec → FileRec)
    (hp : ∀ r, (p r).id = r.id) :
    (updateById l i p).map FileRec.id = l.map FileRec.id := by
  unfold updateById
  rw [List.map_map]
  apply List.map_congr_left
  intro r _
  by_cases h : r.id = i <;> simp [h, hp]

/-- `updRec` rewrites the touched tier by `updateById` in both the
found and the not-found branch. -/
theorem part_updRec_self (s : StoreState) (t : Tier) (i : Nat) (p : FileRec → FileRec) :
    (updRec s t i p).part t = updateById (s.part t) i p := by
  unfold updRec findByIdAndUpdate
  cases h : findById (s.part t) i with
  | none => simpa using (updateById_eq_of_none p h).symm
  | some r => simp

theorem part_updRec_ne (s : StoreState) {t u : Tier} (h : u ≠ t) (i : Nat)
    (p : FileRec → FileRec) :
    (updRec s t i p).part u = s.part u := by
  unfold updRec findByIdAndUpdate
  cases hf : findById (s.part t) i with
  | none => simp
  | some r => simpa using part_setPart_ne s h _

theorem part_delRec_self (s : StoreState) (t : Tier) (i : Nat) :
    (delRec s t i).part t = deleteById (s.part t) i := by
  unfold delRec
  simp

theorem part_delRec_ne (s : StoreState) {t u : Tier} (h : u ≠ t) (i : Nat) :
    (delRec s t i).part u = s.part u := by
  unfold delRec
  simpa using part_setPart_ne s h _

@[simp] theorem part_incCount (s : StoreState) (t : Tier) :
    (incrementMigrationCount s).part t = s.part t := by
  unfold incrementMigrationCount
  exact part_setCount s _ t

/-- The unstuck patch applied by every repair write. -/
theorem isStuck_patch_false (r : FileRec) :
    isStuck { r with migrationStatus := Status.IDLE, isLocked := false } = false := by
  simp [isStuck]

/-- Every write of `processStuckFile` preserves "this tier has no stuck
record": deletions shrink the tier, updates only unstick. -/
theorem processStuckFile_preserves_unstuck (now : Nat) (i : Tier) (f : FileRec)
    (s : StoreState) (t : Tier)
    (h : ∀ r ∈ s.part t, isStuck r = false) :
    ∀ r ∈ (processStuckFile now i f s).1.part t, isStuck r = false := by
  unfold processStuckFile
  split
  · cases hdup : findDuplicate now s i f with
    | some jd =>
      obtain ⟨j, dup⟩ := jd
      simp only [hdup]
      split
      · intro r hr
        by_cases hjt : t = j
        · subst hjt
          rw [part_updRec_self] at hr
          rcases mem_updateById_elim hr with ⟨hin, _⟩ | ⟨r0, hr0, _, hre⟩
          · rw [part_setCount] at hin
            by_cases hti : t = i
            · subst hti
              rw [part_delRec_self] at hin
              exact h r (mem_deleteById_elim hin).1
            · rw [part_delRec_ne _ hti] at hin
              exact h r hin
          · rw [hre]
            exact isStuck_patch_false r0
        · rw [part_updRec_ne _ hjt, part_setCount] at hr
          by_cases hti : t = i
          · subst hti
            rw [part_delRec_self] at hr
            exact h r (mem_deleteById_elim hr).1
          · rw [part_delRec_ne _ hti] at hr
            exact h r hr
      · intro r hr
        simp only [part_setCount] at hr
        by_cases hti : t = i
        · subst hti
          rw [part_delRec_self] at hr
          exact h r (mem_deleteById_elim hr).1
        · rw [part_delRec_ne _ hti] at hr
          exact h r hr
    | none =>
      simp only [hdup]
      intro r hr
      by_cases hti : t = i
      · subst hti
        rw [part_updRec_self] at hr
        rcases mem_updateById_elim hr with ⟨hin, _⟩ | ⟨r0, _, _, hre⟩
        · exact h r hin
        · rw [hre]
          exact isStuck_patch_false r0
      · rw [part_updRec_ne _ hti] at hr
        exact h r hr
  · intro r hr
    by_cases hti : t = i
    · subst hti
      rw [part_updRec_self] at hr
      rcases mem_updateById_elim hr with ⟨hin, _⟩ | ⟨r0, _, _, hre⟩
      · exact h r hin
      · rw [hre]
        exact isStuck_patch_false r0
    · rw [part_updRec_ne _ hti] at hr
      exact h r hr

/-- What a successful duplicate search yields: a tier other than the
source one, a member of that tier, matching the duplicate query. -/
theorem findDuplicateIn_some {now : Nat} {s : StoreState} {f : FileRec} :
    ∀ {ts : List Tier} {j : Tier} {dup : FileRec},
      findDuplicateIn now s f ts = some (j, dup) →
      j ∈ ts ∧ dup ∈ s.part j ∧ isDuplicateOf now f dup = true := by
  intro ts
  induction ts with
  | nil => intro j dup h; exact absurd h (by simp [findDuplicateIn])
  | cons a ts ih =>
    intro j dup h
    unfold findDuplicateIn at h
    cases hf : (s.part a).find? (isDuplicateOf now f) with
    | some d =>
      rw [hf] at h
      obtain ⟨h1, h2⟩ := Prod.mk.injEq .. ▸ (Option.some.injEq .. ▸ h)
      subst h1; subst h2
      exact ⟨List.mem_cons_self a ts, List.mem_of_find?_eq_some hf, List.find?_some hf⟩
    | none =>
      rw [hf] at h
      obtain ⟨hj, hd, hp⟩ := ih h
      exact ⟨List.mem_cons_of_mem a hj, hd, hp⟩

theorem findDuplicate_some {now : Nat} {s : StoreState} {i j : Tier}
    {f dup : FileRec} (h : findDuplicate now s i f = some (j, dup)) :
    j ≠ i ∧ dup ∈ s.part j ∧ isDuplicateOf now f dup = true := by
  obtain ⟨hj, hd, hp⟩ := findDuplicateIn_some h
  refine ⟨?_, hd, hp⟩
  have := (List.mem_filter.mp hj).2
  simpa using this

/-- If a record of the processed tier is still stuck after one repair
step, it was already there and is not the record just handled. -/
theorem processStuckFile_stuck_mem (now : Nat) (i : Tier) (f : FileRec)
    (s : StoreState) :
    ∀ r ∈ (processStuckFile now i f s).1.part i, isStuck r = true →
      r ∈ s.part i ∧ r.id ≠ f.id := by
  unfold processStuckFile
  split
  · cases hdup : findDuplicate now s i f with
    | some jd =>
      obtain ⟨j, dup⟩ := jd
      obtain ⟨hji, -, -⟩ := findDuplicate_some hdup
      simp only [hdup]
      split
      · intro r hr hstuck
        rw [part_updRec_ne _ (Ne.symm hji), part_setCount, part_delRec_self] at hr
        exact mem_deleteById_elim hr
      · intro r hr hstuck
        simp only [part_setCount] at hr
        rw [part_delRec_self] at hr
        exact mem_deleteById_elim hr
    | none =>
      simp only [hdup]
      intro r hr hstuck
      rw [part_updRec_self] at hr
      rcases mem_updateById_elim hr with ⟨hin, hne⟩ | ⟨r0, _, _, hre⟩
      · exact ⟨hin, hne⟩
      · rw [hre] at hstuck
        rw [isStuck_patch_false r0] at hstuck
        exact absurd hstuck (by simp)
  · intro r hr hstuck
    rw [part_updRec_self] at hr
    rcases mem_updateById_elim hr with ⟨hin, hne⟩ | ⟨r0, _, _, hre⟩
    · exact ⟨hin, hne⟩
    · rw [hre] at hstuck
      rw [isStuck_patch_false r0] at hstuck
      exact absurd hstuck (by simp)

/-- After a tier's stuck list is processed, records of that tier still
stuck would need a witness in the (exhausted) list: there are none. -/
theorem processList_no_stuck (now : Nat) (i : Tier) :
    ∀ (fs : List FileRec) (s : StoreState),
      (∀ r ∈ s.part i, isStuck r = true → ∃ f ∈ fs, f.id = r.id) →
      ∀ r ∈ (processList now i fs s).1.part i, isStuck r = false := by
  intro fs
  induction fs with
  | nil =>
    intro s hw r hr
    by_contra hst
    obtain ⟨f, hf, -⟩ := hw r hr (by simpa using hst)
    exact absurd hf (List.not_mem_nil f)
  | cons f fs ih =>
    intro s hw
    unfold processList
    apply ih
    intro r hr hst
    obtain ⟨hin, hne⟩ := processStuckFile_stuck_mem now i f s r hr hst
    obtain ⟨f1, hf1, hid⟩ := hw r hin hst
    cases List.mem_cons.mp hf1 with
    | inl he => exact absurd (he ▸ hid) (fun hh => hne hh.symm)
    | inr ht => exact ⟨f1, ht, hid⟩

/-- Tiers with no stuck record stay that way through a whole list. -/
theorem processList_preserves_unstuck (now : Nat) (i : Tier) (t : Tier) :
    ∀ (fs : List FileRec) (s : StoreState),
      (∀ r ∈ s.part t, isStuck r = false) →
      ∀ r ∈ (processList now i fs s).1.part t, isStuck r = false := by
  intro fs
  induction fs with
  | nil => intro s h; exact h
  | cons f fs ih =>
    intro s h
    unfold processList
    exact ih _ (processStuckFile_preserves_unstuck now i f s t h)

/-- No record anywhere is stuck after a reconciliation pass. -/
theorem recover_no_stuck (now : Nat) (s : StoreState) :
    ∀ t, ∀ r ∈ (recoverStuckMigrations now s).1.part t, isStuck r = false := by
  intro t
  unfold recoverStuckMigrations processTier
  have base : ∀ (u : Tier) (s0 : StoreState),
      ∀ r ∈ (processList now u ((s0.part u).filter isStuck) s0).1.part u,
        isStuck r = false := by
    intro u s0
    apply processList_no_stuck
    intro r hr hst
    exact ⟨r, List.mem_filter.mpr ⟨hr, hst⟩, rfl⟩
  cases t with
  | HOT =>
    apply processList_preserves_unstuck
    apply processList_preserves_unstuck
    exact base Tier.HOT s
  | WARM =>
    apply processList_preserves_unstuck
    exact base Tier.WARM _
  | COLD =>
    exact base Tier.COLD _

/-- On a store with no stuck record, reconciliation does nothing and
reports nothing. -/
theorem recover_of_no_stuck (now : Nat) (s : StoreState)
    (h : ∀ t, ∀ r ∈ s.part t, isStuck r = false) :
    recoverStuckMigrations now s = (s, []) := by
  have hf : ∀ t, (s.part t).filter isStuck = [] := by
    intro t
    rw [List.filter_eq_nil_iff]
    intro r hr
    simp [h t r hr]
  have step : ∀ u, processTier now u s = (s, []) := by
    intro u
    unfold processTier
    rw [hf u]
    rfl
  unfold recoverStuckMigrations
  simp only [step]
  rfl

theorem nodupIds_inj {l : List FileRec} (h : NodupIds l) {a b : FileRec}
    (ha : a ∈ l) (hb : b ∈ l) (hid : a.id = b.id) : a = b :=
  List.inj_on_of_nodup_map h ha hb hid

theorem nodupIds_updateById {l : List FileRec} {i : Nat} {p : FileRec → FileRec}
    (hp : ∀ r, (p r).id = r.id) (h : NodupIds l) : NodupIds (updateById l i p) := by
  unfold NodupIds
  rw [ids_updateById l i p hp]
  exact h

theorem nodupIds_deleteById {l : List FileRec} {i : Nat}
    (h : NodupIds l) : NodupIds (deleteById l i) :=
  ((List.filter_sublist l).map FileRec.id).nodup h

theorem nodupIds_filter {l : List FileRec} (q : FileRec → Bool)
    (h : NodupIds l) : NodupIds (l.filter q) :=
  ((List.filter_sublist l).map FileRec.id).nodup h

theorem stuck_ne_failed {f : FileRec} (h : isStuck f = true) :
    f.migrationStatus ≠ Status.FAILED := by
  intro hF
  simp [isStuck, hF] at h

theorem dup_ne_failed {now : Nat} {f dup : FileRec}
    (h : isDuplicateOf now f dup = true) :
    dup.migrationStatus ≠ Status.FAILED := by
  intro hF
  simp [isDuplicateOf, hF] at h

/-- One repair step keeps per-collection id uniqueness. -/
theorem processStuckFile_preserves_nodup (now : Nat) (i : Tier) (f : FileRec)
    (s : StoreState) (hnd : ∀ t, NodupIds (s.part t)) :
    ∀ t, NodupIds ((processStuckFile now i f s).1.part t) := by
  unfold processStuckFile
  split
  · cases hdup : findDuplicate now s i f with
    | some jd =>
      obtain ⟨j, dup⟩ := jd
      simp only [hdup]
      split
      · intro t
        by_cases htj : t = j
        · subst htj
          rw [part_updRec_self]
          refine nodupIds_updateById ?_ ?_
          · exact fun r => rfl
          · rw [part_setCount]
            by_cases hti : t = i
            · subst hti
              rw [part_delRec_self]
              exact nodupIds_deleteById (hnd t)
            · rw [part_delRec_ne _ hti]
              exact hnd t
        · rw [part_updRec_ne _ htj, part_setCount]
          by_cases hti : t = i
          · subst hti
            rw [part_delRec_self]
            exact nodupIds_deleteById (hnd t)
          · rw [part_delRec_ne _ hti]
            exact hnd t
      · intro t
        rw [part_setCount]
        by_cases hti : t = i
        · subst hti
          rw [part_delRec_self]
          exact nodupIds_deleteById (hnd t)
        · rw [part_delRec_ne _ hti]
          exact hnd t
    | none =>
      simp only [hdup]
      intro t
      by_cases hti : t = i
      · subst hti
        rw [part_updRec_self]
        refine nodupIds_updateById ?_ (hnd t)
        exact fun r => rfl
      · rw [part_updRec_ne _ hti]
        exact hnd t
  · intro t
    by_cases hti : t = i
    · subst hti
      rw [part_updRec_self]
      refine nodupIds_updateById ?_ (hnd t)
      exact fun r => rfl
    · rw [part_updRec_ne _ hti]
      exact hnd t

/-- One repair step never touches a FAILED record: the stuck record it
deletes or resets is not FAILED, and the duplicate it may unlock is not
FAILED either. -/
theorem processStuckFile_preserves_failed (now : Nat) (i : Tier) (f : FileRec)
    (s : StoreState) (hnd : ∀ t, NodupIds (s.part t))
    (hfmem : f ∈ s.part i) (hfs : isStuck f = true)
    {t0 : Tier} {r : FileRec} (hr : r ∈ s.part t0)
    (hF : r.migrationStatus = Status.FAILED) :
    r ∈ (processStuckFile now i f s).1.part t0 := by
  have hdel : r ∈ (delRec s i f.id).part t0 := by
    by_cases hti : t0 = i
    · subst hti
      rw [part_delRec_self]
      refine mem_deleteById_of_ne hr (fun hid => ?_)
      exact stuck_ne_failed hfs ((nodupIds_inj (hnd t0) hr hfmem hid) ▸ hF)
    · rw [part_delRec_ne _ hti]
      exact hr
  have hreset : r ∈ (updRec s i f.id
      (fun x => { x with migrationStatus := Status.IDLE, isLocked := false })).part t0 := by
    by_cases hti : t0 = i
    · subst hti
      rw [part_updRec_self]
      refine mem_updateById_of_ne hr (fun hid => ?_) _
      exact stuck_ne_failed hfs ((nodupIds_inj (hnd t0) hr hfmem hid) ▸ hF)
    · rw [part_updRec_ne _ hti]
      exact hr
  unfold processStuckFile
  split
  · cases hdup : findDuplicate now s i f with
    | some jd =>
      obtain ⟨j, dup⟩ := jd
      obtain ⟨hji, hdmem, hdq⟩ := findDuplicate_some hdup
      simp only [hdup]
      split
      · by_cases htj : t0 = j
        · subst htj
          rw [part_updRec_self]
          refine mem_updateById_of_ne ?_ (fun hid => ?_) _
          · rw [part_setCount, part_delRec_ne _ hji]
            exact hr
          · exact dup_ne_failed hdq ((nodupIds_inj (hnd _) hr hdmem hid) ▸ hF)
        · rw [part_updRec_ne _ htj, part_setCount]
          exact hdel
      · rw [part_setCount]
        exact hdel
    | none =>
      simp only [hdup]
      exact hreset
  · exact hreset

/-- A record of the processed tier with a different id survives one
repair step untouched. -/
theorem processStuckFile_mem_part_of_ne (now : Nat) (i : Tier) (f : FileRec)
    (s : StoreState) {f1 : FileRec}
    (h1 : f1 ∈ s.part i) (hne : f1.id ≠ f.id) :
    f1 ∈ (processStuckFile now i f s).1.part i := by
  unfold processStuckFile
  split
  · cases hdup : findDuplicate now s i f with
    | some jd =>
      obtain ⟨j, dup⟩ := jd
      obtain ⟨hji, -, -⟩ := findDuplicate_some hdup
      simp only [hdup]
      split
      · rw [part_updRec_ne _ (Ne.symm hji), part_setCount, part_delRec_self]
        exact mem_deleteById_of_ne h1 hne
      · rw [part_setCount, part_delRec_self]
        exact mem_deleteById_of_ne h1 hne
    | none =>
      simp only [hdup]
      rw [part_updRec_self]
      exact mem_updateById_of_ne h1 hne _
  · rw [part_updRec_self]
    exact mem_updateById_of_ne h1 hne _

theorem processList_preserves_failed (now : Nat) (i : Tier) {t0 : Tier}
    {r : FileRec} (hF : r.migrationStatus = Status.FAILED) :
    ∀ (fs : List FileRec) (s : StoreState),
      (∀ t, NodupIds (s.part t)) →
      (∀ f ∈ fs, f ∈ s.part i ∧ isStuck f = true) →
      NodupIds fs →
      r ∈ s.part t0 →
      r ∈ (processList now i fs s).1.part t0 ∧
        ∀ t, NodupIds ((processList now i fs s).1.part t) := by
  intro fs
  induction fs with
  | nil =>
    intro s hnd _ _ hr
    exact ⟨hr, hnd⟩
  | cons f fs ih =>
    intro s hnd hfs hdupids hr
    have hfm := hfs f (List.mem_cons_self f fs)
    have hhead : f.id ∉ fs.map FileRec.id := by
      unfold NodupIds at hdupids
      rw [List.map_cons] at hdupids
      exact (List.nodup_cons.mp hdupids).1
    unfold processList
    apply ih
    · exact processStuckFile_preserves_nodup now i f s hnd
    · intro f1 hf1
      have h1 := hfs f1 (List.mem_cons_of_mem f hf1)
      have hne : f1.id ≠ f.id := by
        intro hh
        exact hhead (hh ▸ List.mem_map_of_mem FileRec.id hf1)
      exact ⟨processStuckFile_mem_part_of_ne now i f s h1.1 hne, h1.2⟩
    · unfold NodupIds at hdupids ⊢
      rw [List.map_cons] at hdupids
      exact (List.nodup_cons.mp hdupids).2
    · exact processStuckFile_preserves_failed now i f s hnd hfm.1 hfm.2 hr hF

theorem processTier_preserves_failed (now : Nat) (u : Tier) (s : StoreState)
    (hnd : ∀ t, NodupIds (s.part t)) {t0 : Tier} {r : FileRec}
    (hr : r ∈ s.part t0) (hF : r.migrationStatus = Status.FAILED) :
    r ∈ (processTier now u s).1.part t0 ∧
      ∀ t, NodupIds ((processTier now u s).1.part t) := by
  unfold processTier
  refine processList_preserves_failed now u hF _ s hnd ?_ ?_ hr
  · intro f hf
    have := List.mem_filter.mp hf
    exact ⟨this.1, this.2⟩
  · exact nodupIds_filter _ (hnd u)

/-- Reconciliation preserves every FAILED record exactly as it stands. -/
theorem recover_preserves_failed (now : Nat) (s : StoreState)
    (hnd : ∀ t, NodupIds (s.part t)) {t0 : Tier} {r : FileRec}
    (hr : r ∈ s.part t0) (hF : r.migrationStatus = Status.FAILED) :
    r ∈ (recoverStuckMigrations now s).1.part t0 := by
  unfold recoverStuckMigrations
  have h1 := processTier_preserves_failed now Tier.HOT s hnd hr hF
  have h2 := processTier_preserves_failed now Tier.WARM _ h1.2 h1.1 hF
  have h3 := processTier_preserves_failed now Tier.COLD _ h2.2 h2.1 hF
  exact h3.1

/-- What membership in a tier's candidate list implies. -/
theorem mem_candidatesOf {now : Nat} {t : Tier} {l : List FileRec} {c : Candidate}
    (hc : c ∈ candidatesOf now t l) :
    c.file ∈ l ∧ c.file.migrationStatus = Status.IDLE ∧ c.file.isLocked = false := by
  unfold candidatesOf at hc
  obtain ⟨a, ha, hfa⟩ := List.mem_filterMap.mp hc
  have hfilt := List.mem_filter.mp ha
  have hpred : a.migrationStatus = Status.IDLE ∧ a.isLocked = false := by
    have := hfilt.2
    simp only [Bool.and_eq_true, beq_iff_eq, Bool.not_eq_true'] at this
    exact this
  simp only [] at hfa
  split at hfa
  · obtain h := Option.some.injEq .. ▸ hfa
    rw [← h]
    exact ⟨hfilt.1, hpred.1, hpred.2⟩
  · exact absurd hfa (by simp)

theorem handleFailure_spec (tgt src : Tier) (fid : Nat) (nido : Option Nat)
    (file : FileRec) (e : MigErr) (s1 : StoreState) (rc : FileRec)
    (hST : src ≠ tgt) (hid : file.id = fid)
    (hfind : findById (s1.part src) fid = some rc) :
    (∃ r2, findById ((handleFailure tgt src fid nido file e s1).2.part src) fid = some r2 ∧
      r2.fileData = rc.fileData ∧ r2.checksum = rc.checksum ∧
      r2.fileName = rc.fileName ∧ r2.retryAttempts = rc.retryAttempts ∧
      (file.retryAttempts + 1 < MAX_RETRY_ATTEMPTS →
        r2.migrationStatus = Status.IDLE ∧ r2.isLocked = false)) ∧
    (handleFailure tgt src fid nido file e s1).2.part tgt =
      (match nido with
       | some nid => deleteById (s1.part tgt) nid
       | none => s1.part tgt) ∧
    ∃ e2, (handleFailure tgt src fid nido file e s1).1 = Except.error e2 := by
  unfold handleFailure
  cases nido with
  | none =>
    simp only []
    split
    · rename_i hmax
      rw [hid]
      refine ⟨⟨{ rc with isLocked := false, migrationStatus := Status.FAILED }, ?_,
        rfl, rfl, rfl, rfl, fun hlt => absurd hmax (by omega)⟩, ?_, ⟨_, rfl⟩⟩
      · rw [part_updRec_self, findById_updateById_self]
        · rw [hfind]
          rfl
        · intro r
          rfl
      · exact part_updRec_ne _ (Ne.symm hST) _ _
    · refine ⟨⟨{ rc with isLocked := false, migrationStatus := Status.IDLE }, ?_,
        rfl, rfl, rfl, rfl, fun hlt => ⟨rfl, rfl⟩⟩, ?_, ⟨_, rfl⟩⟩
      · unfold unlockCore
        rw [part_updRec_self, findById_updateById_self]
        · rw [hfind]
          rfl
        · intro r
          rfl
      · unfold unlockCore
        exact part_updRec_ne _ (Ne.symm hST) _ _
  | some nid =>
    simp only []
    have hfind2 : findById ((delRec s1 tgt nid).part src) fid = some rc := by
      rw [part_delRec_ne _ hST]
      exact hfind
    split
    · rename_i hmax
      rw [hid]
      refine ⟨⟨{ rc with isLocked := false, migrationStatus := Status.FAILED }, ?_,
        rfl, rfl, rfl, rfl, fun hlt => absurd hmax (by omega)⟩, ?_, ⟨_, rfl⟩⟩
      · rw [part_updRec_self, findById_updateById_self]
        · rw [hfind2]
          rfl
        · intro r
          rfl
      · rw [part_updRec_ne _ (Ne.symm hST), part_delRec_self]
    · refine ⟨⟨{ rc with isLocked := false, migrationStatus := Status.IDLE }, ?_,
        rfl, rfl, rfl, rfl, fun hlt => ⟨rfl, rfl⟩⟩, ?_, ⟨_, rfl⟩⟩
      · unfold unlockCore
        rw [part_updRec_self, findById_updateById_self]
        · rw [hfind2]
          rfl
        · intro r
          rfl
      · unfold unlockCore
        rw [part_updRec_ne _ (Ne.symm hST), part_delRec_self]

theorem commitPhase_spec (fid : Nat) (src tgt : Tier) (sh th : String)
    (nid : Nat) (s3 : StoreState) (nd : FileRec)
    (hST : src ≠ tgt)
    (hread : findById (s3.part tgt) nid = some nd) :
    (commitPhase fid src tgt sh th nid s3).1 = Except.ok
      { nd with
        migrationStatus := Status.IDLE
        isLocked := false
        sourceChecksumBeforeMigration := some sh
        targetChecksumAfterMigration := some th } ∧
    findById ((commitPhase fid src tgt sh th nid s3).2.part tgt) nid
      = some { nd with
          migrationStatus := Status.IDLE
          isLocked := false
          sourceChecksumBeforeMigration := some sh
          targetChecksumAfterMigration := some th } ∧
    findById ((commitPhase fid src tgt sh th nid s3).2.part src) fid = none := by
  have hpartT : findById ((commitStates fid src tgt sh th nid s3).part tgt) nid
      = some { nd with
          migrationStatus := Status.IDLE
          isLocked := false
          sourceChecksumBeforeMigration := some sh
          targetChecksumAfterMigration := some th } := by
    unfold commitStates
    rw [part_incCount, part_delRec_ne _ (Ne.symm hST), part_updRec_ne _ (Ne.symm hST),
      part_updRec_self, findById_updateById_self]
    · rw [hread]
      rfl
    · intro r
      rfl
  have hpartS : findById ((commitStates fid src tgt sh th nid s3).part src) fid = none := by
    unfold commitStates
    rw [part_incCount, part_delRec_self]
    exact findById_deleteById_self _ _
  unfold commitPhase
  rw [hpartT]
  exact ⟨rfl, hpartT, hpartS⟩

theorem migrateVerify_spec (hash : String → String) (fid : Nat) (src tgt : Tier)
    (file : FileRec) (sh : String) (nd : FileRec) (s3 : StoreState)
    (ltgt : List FileRec) (rc : FileRec)
    (hST : src ≠ tgt) (hid : file.id = fid)
    (hsrc : findById (s3.part src) fid = some rc)
    (htgt : s3.part tgt = ltgt ++ [nd])
    (hfr : ∀ r ∈ ltgt, r.id ≠ nd.id) :
    (sh = hash nd.fileData ∧
      (migrateVerify hash fid src tgt file sh nd.id s3).1 = Except.ok
        { nd with
          migrationStatus := Status.IDLE
          isLocked := false
          sourceChecksumBeforeMigration := some sh
          targetChecksumAfterMigration := some (hash nd.fileData) } ∧
      findById ((migrateVerify hash fid src tgt file sh nd.id s3).2.part tgt) nd.id
        = some { nd with
            migrationStatus := Status.IDLE
            isLocked := false
            sourceChecksumBeforeMigration := some sh
            targetChecksumAfterMigration := some (hash nd.fileData) } ∧
      findById ((migrateVerify hash fid src tgt file sh nd.id s3).2.part src) fid = none)
    ∨ ((migrateVerify hash fid src tgt file sh nd.id s3).2.part tgt = ltgt ∧
       (∃ r2, findById ((migrateVerify hash fid src tgt file sh nd.id s3).2.part src) fid
            = some r2 ∧
          r2.fileData = rc.fileData ∧ r2.checksum = rc.checksum ∧
          r2.fileName = rc.fileName ∧ r2.retryAttempts = rc.retryAttempts ∧
          (file.retryAttempts + 1 < MAX_RETRY_ATTEMPTS →
            r2.migrationStatus = Status.IDLE ∧ r2.isLocked = false)) ∧
       ∃ e2, (migrateVerify hash fid src tgt file sh nd.id s3).1 = Except.error e2) := by
  have hread : findById (s3.part tgt) nd.id = some nd := by
    rw [htgt]
    exact findById_append_fresh hfr
  have hdelt : deleteById (s3.part tgt) nd.id = ltgt := by
    rw [htgt]
    exact deleteById_append_fresh hfr rfl
  unfold migrateVerify
  rw [hread]
  simp only []
  split
  · -- re-read payload falsy: cleanup and retry bookkeeping
    right
    obtain ⟨hsome, htp, herr⟩ :=
      handleFailure_spec tgt src fid (some nd.id) file MigErr.missingData s3 rc hST hid hsrc
    exact ⟨by rw [htp]; exact hdelt, hsome, herr⟩
  · split
    · -- digest mismatch: rollback, then cleanup and retry bookkeeping
      right
      have hsrc5 : findById ((unlockCore (delRec s3 tgt nd.id) fid src Status.FAILED).part src)
          fid = some { rc with isLocked := false, migrationStatus := Status.FAILED } := by
        unfold unlockCore
        rw [part_updRec_self, findById_updateById_self]
        · rw [part_delRec_ne _ hST, hsrc]
          rfl
        · intro r
          rfl
      obtain ⟨hsome, htp, herr⟩ :=
        handleFailure_spec tgt src fid (some nd.id) file MigErr.checksumMismatch _ _
          hST hid hsrc5
      refine ⟨?_, ?_, herr⟩
      · rw [htp]
        show deleteById ((unlockCore (delRec s3 tgt nd.id) fid src Status.FAILED).part tgt)
          nd.id = ltgt
        unfold unlockCore
        rw [part_updRec_ne _ (Ne.symm hST), part_delRec_self, hdelt]
        exact deleteById_eq_of_not_mem hfr
      · obtain ⟨r2, hr2, hf1, hf2, hf3, hf4, hf5⟩ := hsome
        exact ⟨r2, hr2, hf1, hf2, hf3, hf4, hf5⟩
    · -- verified: commit
      left
      rename_i hne
      have heq : sh = hash nd.fileData := by
        by_contra hc
        exact hne hc
      obtain ⟨hres, hT, hS⟩ :=
        commitPhase_spec fid src tgt sh (hash nd.fileData) nd.id s3 nd hST hread
      exact ⟨heq, hres, hT, hS⟩

theorem verifyState_src (hash : String → String) (fid : Nat) (src : Tier)
    (file : FileRec) (s1 : StoreState)
    (hsrc1 : findById (s1.part src) fid = some file) :
    findById ((verifyState hash fid src file s1).part src) fid
      = some { file with
          migrationStatus := Status.VERIFYING
          sourceChecksumBeforeMigration := some (hash file.fileData) } := by
  unfold verifyState
  rw [part_updRec_self, findById_updateById_self]
  · rw [hsrc1]
    rfl
  · intro r
    rfl

theorem migrateLocked_spec (hash wr : String → String) (now fid : Nat)
    (src tgt : Tier) (file : FileRec) (s1 : StoreState)
    (hST : src ≠ tgt) (hid : file.id = fid)
    (hsrc1 : findById (s1.part src) fid = some file)
    (hfr1 : ∀ r ∈ s1.part tgt, r.id ≠ s1.nextId) :
    (hash (wr file.fileData) = hash file.fileData ∧
      ∃ res, (migrateLocked hash wr now fid src tgt file s1).1 = Except.ok res ∧
        res.migrationStatus = Status.IDLE ∧ res.isLocked = false ∧
        res.fileName = file.fileName ∧ res.fileData = wr file.fileData ∧
        findById ((migrateLocked hash wr now fid src tgt file s1).2.part tgt) res.id
          = some res ∧
        findById ((migrateLocked hash wr now fid src tgt file s1).2.part src) fid = none)
    ∨ ((migrateLocked hash wr now fid src tgt file s1).2.part tgt = s1.part tgt ∧
       (∃ r2, findById ((migrateLocked hash wr now fid src tgt file s1).2.part src) fid
            = some r2 ∧
          r2.fileData = file.fileData ∧ r2.checksum = file.checksum ∧
          r2.fileName = file.fileName ∧ r2.retryAttempts = file.retryAttempts ∧
          (file.retryAttempts + 1 < MAX_RETRY_ATTEMPTS →
            r2.migrationStatus = Status.IDLE ∧ r2.isLocked = false)) ∧
       ∃ e2, (migrateLocked hash wr now fid src tgt file s1).1 = Except.error e2) := by
  unfold migrateLocked
  split
  · -- missing source payload
    right
    obtain ⟨hsome, htp, herr⟩ :=
      handleFailure_spec tgt src fid none file MigErr.missingData s1 file hST hid hsrc1
    exact ⟨htp, hsome, herr⟩
  · split
    · -- stored checksum disagrees with the recomputed digest
      right
      have hsrc3 : findById ((unlockCore (verifyState hash fid src file s1)
          fid src Status.FAILED).part src) fid
          = some { file with
              migrationStatus := Status.FAILED
              isLocked := false
              sourceChecksumBeforeMigration := some (hash file.fileData) } := by
        unfold unlockCore
        rw [part_updRec_self, findById_updateById_self]
        · rw [verifyState_src hash fid src file s1 hsrc1]
          rfl
        · intro r
          rfl
      obtain ⟨hsome, htp, herr⟩ :=
        handleFailure_spec tgt src fid none file MigErr.sourceIntegrityFailed _ _
          hST hid hsrc3
      refine ⟨?_, ?_, herr⟩
      · rw [htp]
        unfold unlockCore verifyState
        rw [part_updRec_ne _ (Ne.symm hST), part_updRec_ne _ (Ne.symm hST)]
      · obtain ⟨r2, hr2, hf1, hf2, hf3, hf4, hf5⟩ := hsome
        exact ⟨r2, hr2, hf1, hf2, hf3, hf4, hf5⟩
    · -- checks pass: copy and verify
      have hnextId : (verifyState hash fid src file s1).nextId = s1.nextId := by
        unfold verifyState
        exact nextId_updRec s1 src fid _
      have hsrc3 : findById ((insertState hash wr now fid src tgt file s1).part src) fid
          = some { file with
              migrationStatus := Status.VERIFYING
              sourceChecksumBeforeMigration := some (hash file.fileData) } := by
        unfold insertState
        rw [part_setNextId]
        unfold insRec
        rw [part_setPart_ne _ hST]
        exact verifyState_src hash fid src file s1 hsrc1
      have htgt3 : (insertState hash wr now fid src tgt file s1).part tgt
          = s1.part tgt ++ [copiedDoc wr now file (hash file.fileData)
              (verifyState hash fid src file s1).nextId] := by
        unfold insertState
        rw [part_setNextId]
        unfold insRec
        rw [part_setPart_self]
        unfold verifyState
        rw [part_updRec_ne _ (Ne.symm hST)]
      have hfr3 : ∀ r ∈ s1.part tgt,
          r.id ≠ (copiedDoc wr now file (hash file.fileData)
            (verifyState hash fid src file s1).nextId).id := by
        intro r hr
        show r.id ≠ (verifyState hash fid src file s1).nextId
        rw [hnextId]
        exact hfr1 r hr
      have hspec := migrateVerify_spec hash fid src tgt file (hash file.fileData)
        (copiedDoc wr now file (hash file.fileData)
          (verifyState hash fid src file s1).nextId)
        (insertState hash wr now fid src tgt file s1)
        (s1.part tgt)
        { file with
          migrationStatus := Status.VERIFYING
          sourceChecksumBeforeMigration := some (hash file.fileData) }
        hST hid hsrc3 htgt3 hfr3
      unfold copyPhase
      rcases hspec with ⟨heq, hok, hT, hS⟩ | ⟨htp, hsome, herr⟩
      · left
        exact ⟨heq.symm, _, hok, rfl, rfl, rfl, rfl, hT, hS⟩
      · right
        refine ⟨htp, ?_, herr⟩
        obtain ⟨r2, hr2, hf1, hf2, hf3, hf4, hf5⟩ := hsome
        exact ⟨r2, hr2, hf1, hf2, hf3, hf4, hf5⟩

/-- Master characterization of one migrate call on a present source
record with a fresh target id generator: either the copy verified and
the call committed (source gone, target IDLE and unlocked), or the call
failed, the target collection is exactly as before, and the source
record survives with payload, checksum, name and retry counter
unchanged (IDLE and unlocked as long as the in-memory attempt count
stays below the maximum). -/
theorem migrateCore_spec (hash wr : String → String) (now fid : Nat)
    (src tgt : Tier) (s : StoreState) (r0 : FileRec)
    (hST : src ≠ tgt)
    (h0 : findById (s.part src) fid = some r0)
    (hfresh : ∀ r ∈ s.part tgt, r.id ≠ s.nextId) :
    (hash (wr r0.fileData) = hash r0.fileData ∧
      ∃ res, (migrateCore hash wr now fid src tgt s).1 = Except.ok res ∧
        res.migrationStatus = Status.IDLE ∧ res.isLocked = false ∧
        res.fileName = r0.fileName ∧ res.fileData = wr r0.fileData ∧
        findById ((migrateCore hash wr now fid src tgt s).2.part tgt) res.id = some res ∧
        findById ((migrateCore hash wr now fid src tgt s).2.part src) fid = none)
    ∨ ((migrateCore hash wr now fid src tgt s).2.part tgt = s.part tgt ∧
       (∃ r2, findById ((migrateCore hash wr now fid src tgt s).2.part src) fid = some r2 ∧
          r2.fileData = r0.fileData ∧ r2.checksum = r0.checksum ∧
          r2.fileName = r0.fileName ∧ r2.retryAttempts = r0.retryAttempts ∧
          (r0.retryAttempts + 1 < MAX_RETRY_ATTEMPTS →
            r2.migrationStatus = Status.IDLE ∧ r2.isLocked = false)) ∧
       ∃ e2, (migrateCore hash wr now fid src tgt s).1 = Except.error e2) := by
  have h0id : r0.id = fid := (findById_mem h0).2
  unfold migrateCore lockCore findByIdAndUpdate
  rw [h0]
  simp only []
  have hsrc1 : findById ((s.setPart src (updateById (s.part src) fid (fun r =>
      { r with isLocked := true, migrationStatus := Status.PROCESSING }))).part src) fid
      = some { r0 with isLocked := true, migrationStatus := Status.PROCESSING } := by
    rw [part_setPart_self, findById_updateById_self]
    · rw [h0]
      rfl
    · intro r
      rfl
  have hfr1 : ∀ r ∈ (s.setPart src (updateById (s.part src) fid (fun r =>
      { r with isLocked := true, migrationStatus := Status.PROCESSING }))).part tgt,
      r.id ≠ (s.setPart src (updateById (s.part src) fid (fun r =>
      { r with isLocked := true, migrationStatus := Status.PROCESSING }))).nextId := by
    rw [part_setPart_ne _ (Ne.symm hST), nextId_setPart]
    exact hfresh
  have hspec := migrateLocked_spec hash wr now fid src tgt
    { r0 with isLocked := true, migrationStatus := Status.PROCESSING }
    (s.setPart src (updateById (s.part src) fid (fun r =>
      { r with isLocked := true, migrationStatus := Status.PROCESSING })))
    hST h0id hsrc1 hfr1
  rcases hspec with ⟨heq, res, hok, hI, hL, hN, hD, hT, hS⟩ | ⟨htp, hsome, herr⟩
  · left
    exact ⟨heq, res, hok, hI, hL, hN, hD, hT, hS⟩
  · right
    refine ⟨?_, ?_, herr⟩
    · rw [htp, part_setPart_ne _ (Ne.symm hST)]
    · obtain ⟨r2, hr2, hf1, hf2, hf3, hf4, hf5⟩ := hsome
      exact ⟨r2, hr2, hf1, hf2, hf3, hf4, hf5⟩

/-- If all q-elements of a collection reduce to the single record `f`,
deleting `f`'s id leaves no q-element. -/
theorem filter_deleteById_nil {l : List FileRec} {q : FileRec → Bool} {f : FileRec}
    (h : l.filter q = [f]) : (deleteById l f.id).filter q = [] := by
  have hsub : List.Sublist ((deleteById l f.id).filter q) (l.filter q) :=
    List.Sublist.filter q (List.filter_sublist l)
  rw [h] at hsub
  cases hcase : (deleteById l f.id).filter q with
  | nil => rfl
  | cons b bs =>
    rw [hcase] at hsub
    have hbf : b = f := by
      have hb : b ∈ [f] := hsub.subset (List.mem_cons_self b bs)
      simpa using hb
    have hmem : b ∈ deleteById l f.id :=
      List.mem_of_mem_filter (hcase ▸ List.mem_cons_self b bs)
    exact absurd rfl (hbf ▸ (mem_deleteById_elim hmem).2)

/-- When every tier before the target one reports no duplicate and the
target tier reports `g`, the duplicate search lands on the target. -/
theorem findDuplicate_eq {now : Nat} {s : StoreState} {A B : Tier} {f g : FileRec}
    (hAB : B ≠ A)
    (hdupB : (s.part B).find? (isDuplicateOf now f) = some g)
    (hdupO : ∀ t, t ≠ A → t ≠ B → (s.part t).find? (isDuplicateOf now f) = none) :
    findDuplicate now s A f = some (B, g) := by
  unfold findDuplicate getAllFileModels
  cases A <;> cases B
  · exact absurd rfl hAB
  · simp [findDuplicateIn, hdupB]
  · have h1 := hdupO Tier.WARM (by decide) (by decide)
    simp [findDuplicateIn, h1, hdupB]
  · simp [findDuplicateIn, hdupB]
  · exact absurd rfl hAB
  · have h1 := hdupO Tier.HOT (by decide) (by decide)
    simp [findDuplicateIn, h1, hdupB]
  · simp [findDuplicateIn, hdupB]
  · have h1 := hdupO Tier.HOT (by decide) (by decide)
    simp [findDuplicateIn, h1, hdupB]
  · exact absurd rfl hAB

/-- Tiers whose stuck query comes back empty are left untouched. -/
theorem processTier_of_no_stuck (now : Nat) (t : Tier) {s : StoreState}
    (h : (s.part t).filter isStuck = []) :
    processTier now t s = (s, []) := by
  unfold processTier
  rw [h]
  rfl

/-- The single-stuck-file tier scan of the crash scenario: the stuck
VERIFYING source is deleted, the migration is counted, and the already
committed target is left alone. -/
theorem processTier_scenario {now : Nat} {s : StoreState} {A B : Tier} {f g : FileRec}
    (hAB : B ≠ A)
    (hfV : f.migrationStatus = Status.VERIFYING)
    (hstuckA : (s.part A).filter isStuck = [f])
    (hdupB : (s.part B).find? (isDuplicateOf now f) = some g)
    (hdupO : ∀ t, t ≠ A → t ≠ B → (s.part t).find? (isDuplicateOf now f) = none)
    (hgI : g.migrationStatus = Status.IDLE) (hgL : g.isLocked = false) :
    processTier now A s =
      ({ delRec s A f.id with migrationCount := (delRec s A f.id).migrationCount + 1 },
        [RecAction.deletedSource f B]) := by
  unfold processTier
  rw [hstuckA]
  unfold processList processStuckFile
  rw [findDuplicate_eq hAB hdupB hdupO]
  simp only [hfV, hgI, hgL]
  rfl

/-- The whole reconciliation pass in the crash scenario: wherever the
stuck source tier sits in the scan order, the other tiers' stuck
queries are empty, so the pass performs exactly that tier's repair. -/
theorem recover_scenario {now : Nat} {s : StoreState} {A B : Tier} {f g : FileRec}
    (hAB : B ≠ A)
    (hfV : f.migrationStatus = Status.VERIFYING)
    (hstuckA : (s.part A).filter isStuck = [f])
    (hstuckO : ∀ t, t ≠ A → (s.part t).filter isStuck = [])
    (hdupB : (s.part B).find? (isDuplicateOf now f) = some g)
    (hdupO : ∀ t, t ≠ A → t ≠ B → (s.part t).find? (isDuplicateOf now f) = none)
    (hgI : g.migrationStatus = Status.IDLE) (hgL : g.isLocked = false) :
    recoverStuckMigrations now s =
      ({ delRec s A f.id with migrationCount := (delRec s A f.id).migrationCount + 1 },
        [RecAction.deletedSource f B]) := by
  have hstep := processTier_scenario hAB hfV hstuckA hdupB hdupO hgI hgL
  have hs2part : ∀ t, t ≠ A →
      ({ delRec s A f.id with
          migrationCount := (delRec s A f.id).migrationCount + 1 } : StoreState).part t
        = s.part t := by
    intro t ht
    rw [part_setCount, part_delRec_ne _ ht]
  unfold recoverStuckMigrations
  cases A
  · have hw := processTier_of_no_stuck now Tier.WARM
      ((hs2part Tier.WARM (by decide)).symm ▸ hstuckO Tier.WARM (by decide))
    have hc := processTier_of_no_stuck now Tier.COLD
      ((hs2part Tier.COLD (by decide)).symm ▸ hstuckO Tier.COLD (by decide))
    simp only [hstep, hw, hc]
    rfl
  · have hh := processTier_of_no_stuck now Tier.HOT (hstuckO Tier.HOT (by decide))
    have hc := processTier_of_no_stuck now Tier.COLD
      ((hs2part Tier.COLD (by decide)).symm ▸ hstuckO Tier.COLD (by decide))
    simp only [hh, hstep, hc]
    rfl
  · have hh := processTier_of_no_stuck now Tier.HOT (hstuckO Tier.HOT (by decide))
    have hw := processTier_of_no_stuck now Tier.WARM (hstuckO Tier.WARM (by decide))
    simp only [hh, hw, hstep]
    rfl

/-- C8: the tier classifier maps access age to tiers exactly as
specified: for a last access `age` milliseconds ago, age ≤ 30 days gives
HOT, more than 30 and up to 90 days gives WARM, beyond 90 days gives
COLD (so ≥ 91 days is COLD), and a missing access date gives COLD; in
particular exactly 30 days gives HOT, 31 days WARM, 90 days WARM and 91
days COLD. -/
theorem tier_classifier_spec :
    (∀ now, evaluateTier now none = Tier.COLD) ∧
    (∀ t age, evaluateTier (t + age) (some t) =
      if age ≤ 30 * DAY_MS then Tier.HOT
      else if age ≤ 90 * DAY_MS then Tier.WARM
      else Tier.COLD) ∧
    evaluateTier (30 * DAY_MS) (some 0) = Tier.HOT ∧
    evaluateTier (31 * DAY_MS) (some 0) = Tier.WARM ∧
    evaluateTier (90 * DAY_MS) (some 0) = Tier.WARM ∧
    evaluateTier (91 * DAY_MS) (some 0) = Tier.COLD := by
  refine ⟨fun now => rfl, fun t age => ?_, by decide, by decide, by decide, by decide⟩
  unfold evaluateTier getDaysSinceAccess HOT_MAX_DAYS WARM_MIN_DAYS WARM_MAX_DAYS
  simp only
  have hmax : max (t + age) t = t + age := Nat.max_eq_left (Nat.le_add_right t age)
  have hmin : min (t + age) t = t := Nat.min_eq_right (Nat.le_add_right t age)
  rw [hmax, hmin]
  have hsub : t + age - t = age := by omega
  rw [hsub]
  have hday : DAY_MS = 86400000 := by norm_num [DAY_MS]
  rw [hday]
  have hdm := Nat.div_add_mod (age + (86400000 - 1)) 86400000
  have hlt : (age + (86400000 - 1)) % 86400000 < 86400000 := Nat.mod_lt _ (by norm_num)
  split_ifs <;> first | rfl | (exfalso; omega)

/-- C10: any tier string other than HOT / WARM / COLD resolves to the
HOT model through the switch's default arm, and consequently a migrate
call with such a target tier behaves exactly like one targeting "HOT":
it raises no error for the bad tier and inserts the copied record into
the HOT partition. -/
theorem unknown_tier_defaults_to_hot (t : String)
    (h1 : t ≠ "HOT") (h2 : t ≠ "WARM") (h3 : t ≠ "COLD") :
    getFileModelByTier t = Tier.HOT ∧
    ∀ hash wr now fileId cur s,
      migrateFile hash wr now fileId cur t s = migrateFile hash wr now fileId cur "HOT" s := by
  have hres : getFileModelByTier t = Tier.HOT := by
    unfold getFileModelByTier
    rw [if_neg h1, if_neg h2, if_neg h3]
  refine ⟨hres, fun hash wr now fileId cur s => ?_⟩
  unfold migrateFile
  rw [hres]
  rfl

/-- Closed witness for the unknown-tier theorem at the concrete string
"GLACIER". -/
theorem unknown_tier_defaults_to_hot_witness :
    getFileModelByTier "GLACIER" = Tier.HOT := by
  exact (unknown_tier_defaults_to_hot "GLACIER" (by decide) (by decide) (by decide)).1

/-- C7: reconciliation is idempotent.  A completed reconciliation run
leaves no stuck (PROCESSING/VERIFYING and locked) record anywhere, and a
run over a store with no stuck record performs zero mutations: running
`recoverStuckMigrations` on the state a previous run produced returns
that state unchanged with an empty action list, whatever the two clock
readings were. -/
theorem runReconciliation_idempotent (now1 now2 : Nat) (s : StoreState) :
    recoverStuckMigrations now2 (recoverStuckMigrations now1 s).1
      = ((recoverStuckMigrations now1 s).1, []) :=
  recover_of_no_stuck now2 _ (recover_no_stuck now1 s)

/-- C3 (code bug): the lock step's `findByIdAndUpdate` filters on `_id`
only and sets `isLocked` unconditionally, so on a record whose
`isLocked` is already `true` the lock step still succeeds — it returns
the document instead of failing with `AlreadyLocked` — and the whole
migrate call on the locked record runs to successful completion. -/
theorem lock_step_ignores_existing_lock :
    (lockFile lockedState 1 "HOT").1 = Except.ok lockedRec ∧
    ∃ r s2, migrateFile (fun d => d) (fun d => d) 1000 1 "HOT" "WARM" lockedState
      = (Except.ok r, s2) := by
  exact ⟨rfl, ⟨_, _, rfl⟩⟩

/-- C1: whenever `migrateFile(O, A, B)` over distinct partitions
returns successfully — for any digest and any backend write path, on a
store holding O's record in A and whose ids are below the id
generator's next value — the returned record is O's copy in partition
B with migrationStatus IDLE and isLocked false, and no record with O's
id remains in partition A. -/
theorem migrate_success_moves_record (hash wr : String → String) (now fid : Nat)
    (A B : String) (s : StoreState) (r0 res : FileRec)
    (hAB : getFileModelByTier A ≠ getFileModelByTier B)
    (h0 : findById (s.part (getFileModelByTier A)) fid = some r0)
    (hfresh : ∀ r ∈ s.part (getFileModelByTier B), r.id ≠ s.nextId)
    (hok : (migrateFile hash wr now fid A B s).1 = Except.ok res) :
    res.migrationStatus = Status.IDLE ∧ res.isLocked = false ∧
    res.fileName = r0.fileName ∧
    findById ((migrateFile hash wr now fid A B s).2.part (getFileModelByTier B)) res.id
      = some res ∧
    findById ((migrateFile hash wr now fid A B s).2.part (getFileModelByTier A)) fid
      = none := by
  unfold migrateFile at *
  rcases migrateCore_spec hash wr now fid (getFileModelByTier A) (getFileModelByTier B)
      s r0 hAB h0 hfresh with ⟨-, res2, hok2, hI, hL, hN, -, hT, hS⟩ | ⟨-, -, e2, herr⟩
  · have hres : res2 = res := by
      rw [hok2] at hok
      exact Option.some.injEq .. ▸ (by simpa using hok)
    subst hres
    exact ⟨hI, hL, hN, hT, hS⟩
  · rw [herr] at hok
    exact absurd hok (by simp)

/-- Closed witness: migrating the concrete steady store `sIdle` from
HOT to WARM succeeds and moves the record. -/
theorem migrate_success_moves_record_witness :
    migratedRec.migrationStatus = Status.IDLE ∧ migratedRec.isLocked = false ∧
    migratedRec.fileName = sampleRec.fileName ∧
    findById (((migrateFile (fun d => d) (fun d => d) 1000 1 "HOT" "WARM" sIdle)).2.part
        (getFileModelByTier "WARM")) migratedRec.id = some migratedRec ∧
    findById (((migrateFile (fun d => d) (fun d => d) 1000 1 "HOT" "WARM" sIdle)).2.part
        (getFileModelByTier "HOT")) 1 = none :=
  migrate_success_moves_record (fun d => d) (fun d => d) 1000 1 "HOT" "WARM"
    sIdle sampleRec migratedRec (by decide) rfl (by decide) rfl

/-- C2: for every run of `migrateFile` over distinct partitions — any
digest, any backend write path — the source record is deleted from the
source partition only when the call committed, which requires the
re-read target copy's recomputed digest to equal `sourceHashBefore`
(`hash r0.fileData`); and on any failure, in particular an unverified
or mismatching copy, the target partition is exactly as before the call
(the target record was deleted) and the source record is preserved with
its payload intact. -/
theorem source_deleted_only_if_copy_verified (hash wr : String → String)
    (now fid : Nat) (A B : String) (s : StoreState) (r0 : FileRec)
    (hAB : getFileModelByTier A ≠ getFileModelByTier B)
    (h0 : findById (s.part (getFileModelByTier A)) fid = some r0)
    (hfresh : ∀ r ∈ s.part (getFileModelByTier B), r.id ≠ s.nextId) :
    (findById ((migrateFile hash wr now fid A B s).2.part (getFileModelByTier A)) fid
        = none →
      hash (wr r0.fileData) = hash r0.fileData ∧
      ∃ res, (migrateFile hash wr now fid A B s).1 = Except.ok res) ∧
    (∀ e2, (migrateFile hash wr now fid A B s).1 = Except.error e2 →
      (migrateFile hash wr now fid A B s).2.part (getFileModelByTier B)
        = s.part (getFileModelByTier B) ∧
      ∃ r2, findById ((migrateFile hash wr now fid A B s).2.part
          (getFileModelByTier A)) fid = some r2 ∧
        r2.fileData = r0.fileData) := by
  unfold migrateFile at *
  rcases migrateCore_spec hash wr now fid (getFileModelByTier A) (getFileModelByTier B)
      s r0 hAB h0 hfresh with
      ⟨heq, res2, hok2, -, -, -, -, -, hS⟩ |
      ⟨htp, ⟨r2, hr2, hf1, -, -, -, -⟩, e2, herr⟩
  · constructor
    · intro _
      exact ⟨heq, res2, hok2⟩
    · intro e2 he
      rw [hok2] at he
      exact absurd he (by simp)
  · constructor
    · intro hdel
      rw [hr2] at hdel
      exact absurd hdel (by simp)
    · intro e3 _
      exact ⟨htp, r2, hr2, hf1⟩

/-- Closed witness: on the concrete store whose record fails the
pre-copy integrity check, both conjuncts hold (the failure path keeps
WARM untouched and preserves the source payload). -/
theorem source_deleted_only_if_copy_verified_witness :
    (findById ((migrateFile (fun d => d) (fun d => d) 1000 1 "HOT" "WARM"
          badChecksumState).2.part (getFileModelByTier "HOT")) 1 = none →
      (fun d => d) ((fun d => d) badChecksumRec.fileData)
          = (fun d => d) badChecksumRec.fileData ∧
      ∃ res, (migrateFile (fun d => d) (fun d => d) 1000 1 "HOT" "WARM"
          badChecksumState).1 = Except.ok res) ∧
    (∀ e2, (migrateFile (fun d => d) (fun d => d) 1000 1 "HOT" "WARM"
          badChecksumState).1 = Except.error e2 →
      (migrateFile (fun d => d) (fun d => d) 1000 1 "HOT" "WARM"
          badChecksumState).2.part (getFileModelByTier "WARM")
        = badChecksumState.part (getFileModelByTier "WARM") ∧
      ∃ r2, findById ((migrateFile (fun d => d) (fun d => d) 1000 1 "HOT" "WARM"
          badChecksumState).2.part (getFileModelByTier "HOT")) 1 = some r2 ∧
        r2.fileData = badChecksumRec.fileData) :=
  source_deleted_only_if_copy_verified (fun d => d) (fun d => d) 1000 1 "HOT" "WARM"
    badChecksumState badChecksumRec (by decide) rfl (by decide)

/-- C4: after any failed `migrateFile` call over distinct partitions on
a record with no accumulated retries, the source record is back in A
with migrationStatus IDLE, isLocked false and its payload, checksum,
name and retry counter unchanged, and the target partition B is exactly
as it was before the call. -/
theorem failed_migrate_preserves_source (hash wr : String → String)
    (now fid : Nat) (A B : String) (s : StoreState) (r0 : FileRec) (e : MigErr)
    (hAB : getFileModelByTier A ≠ getFileModelByTier B)
    (h0 : findById (s.part (getFileModelByTier A)) fid = some r0)
    (hfresh : ∀ r ∈ s.part (getFileModelByTier B), r.id ≠ s.nextId)
    (hretry : r0.retryAttempts = 0)
    (herr : (migrateFile hash wr now fid A B s).1 = Except.error e) :
    (∃ r2, findById ((migrateFile hash wr now fid A B s).2.part
        (getFileModelByTier A)) fid = some r2 ∧
      r2.migrationStatus = Status.IDLE ∧ r2.isLocked = false ∧
      r2.fileData = r0.fileData ∧ r2.checksum = r0.checksum ∧
      r2.fileName = r0.fileName ∧ r2.retryAttempts = r0.retryAttempts) ∧
    (migrateFile hash wr now fid A B s).2.part (getFileModelByTier B)
      = s.part (getFileModelByTier B) := by
  unfold migrateFile at *
  rcases migrateCore_spec hash wr now fid (getFileModelByTier A) (getFileModelByTier B)
      s r0 hAB h0 hfresh with
      ⟨-, res2, hok2, -⟩ | ⟨htp, ⟨r2, hr2, hf1, hf2, hf3, hf4, hf5⟩, -⟩
  · rw [hok2] at herr
    exact absurd herr (by simp)
  · have hidle := hf5 (by rw [hretry]; norm_num [MAX_RETRY_ATTEMPTS])
    exact ⟨⟨r2, hr2, hidle.1, hidle.2, hf1, hf2, hf3, hf4⟩, htp⟩

/-- Closed witness: the concrete pre-copy integrity failure leaves the
source IDLE, unlocked and intact, and WARM untouched. -/
theorem failed_migrate_preserves_source_witness :
    (∃ r2, findById ((migrateFile (fun d => d) (fun d => d) 1000 1 "HOT" "WARM"
        badChecksumState).2.part (getFileModelByTier "HOT")) 1 = some r2 ∧
      r2.migrationStatus = Status.IDLE ∧ r2.isLocked = false ∧
      r2.fileData = badChecksumRec.fileData ∧ r2.checksum = badChecksumRec.checksum ∧
      r2.fileName = badChecksumRec.fileName ∧
      r2.retryAttempts = badChecksumRec.retryAttempts) ∧
    (migrateFile (fun d => d) (fun d => d) 1000 1 "HOT" "WARM"
        badChecksumState).2.part (getFileModelByTier "WARM")
      = badChecksumState.part (getFileModelByTier "WARM") :=
  failed_migrate_preserves_source (fun d => d) (fun d => d) 1000 1 "HOT" "WARM"
    badChecksumState badChecksumRec MigErr.sourceIntegrityFailed
    (by decide) rfl (by decide) rfl rfl

/-- C6: after a crash between target-commit and source-delete — the
source record still locked in VERIFYING in partition A, the committed
copy `g` in partition B matching the duplicate query (same name,
matching checksum, within the recency window) and already IDLE and
unlocked, no other stuck record anywhere and no other record of the
object's name anywhere — `recoverStuckMigrations` deletes the stale
source and reports it, leaving exactly one record of the object's name:
`g`, in the target partition, IDLE and unlocked. -/
theorem reconciliation_resolves_interrupted_commit
    (now : Nat) (s : StoreState) (A B : Tier) (f g : FileRec)
    (hAB : B ≠ A)
    (hfV : f.migrationStatus = Status.VERIFYING)
    (hstuckA : (s.part A).filter isStuck = [f])
    (hstuckO : ∀ t, t ≠ A → (s.part t).filter isStuck = [])
    (hdupB : (s.part B).find? (isDuplicateOf now f) = some g)
    (hdupO : ∀ t, t ≠ A → t ≠ B → (s.part t).find? (isDuplicateOf now f) = none)
    (hgI : g.migrationStatus = Status.IDLE) (hgL : g.isLocked = false)
    (hnameA : (s.part A).filter (fun r => r.fileName == f.fileName) = [f])
    (hnameB : (s.part B).filter (fun r => r.fileName == f.fileName) = [g])
    (hnameO : ∀ t, t ≠ A → t ≠ B →
        (s.part t).filter (fun r => r.fileName == f.fileName) = []) :
    (recoverStuckMigrations now s).2 = [RecAction.deletedSource f B] ∧
    ((recoverStuckMigrations now s).1.part B).filter
        (fun r => r.fileName == f.fileName) = [g] ∧
    (∀ t, t ≠ B → ((recoverStuckMigrations now s).1.part t).filter
        (fun r => r.fileName == f.fileName) = []) ∧
    g.migrationStatus = Status.IDLE ∧ g.isLocked = false := by
  have hout := recover_scenario hAB hfV hstuckA hstuckO hdupB hdupO hgI hgL
  rw [hout]
  refine ⟨rfl, ?_, ?_, hgI, hgL⟩
  · show (({ delRec s A f.id with
        migrationCount := (delRec s A f.id).migrationCount + 1 } : StoreState).part B).filter
        (fun r => r.fileName == f.fileName) = [g]
    rw [part_setCount, part_delRec_ne _ hAB]
    exact hnameB
  · intro t htB
    show (({ delRec s A f.id with
        migrationCount := (delRec s A f.id).migrationCount + 1 } : StoreState).part t).filter
        (fun r => r.fileName == f.fileName) = []
    by_cases htA : t = A
    · subst htA
      rw [part_setCount, part_delRec_self]
      exact filter_deleteById_nil hnameA
    · rw [part_setCount, part_delRec_ne _ htA]
      exact hnameO t htA htB

/-- Closed witness: the concrete crash store `sCrash` (stuck VERIFYING
source in HOT, committed copy in WARM) is repaired to exactly one IDLE,
unlocked copy in WARM. -/
theorem reconciliation_resolves_interrupted_commit_witness :
    (recoverStuckMigrations 1000 sCrash).2
        = [RecAction.deletedSource stuckSrcRec Tier.WARM] ∧
    ((recoverStuckMigrations 1000 sCrash).1.part Tier.WARM).filter
        (fun r => r.fileName == stuckSrcRec.fileName) = [committedTgtRec] ∧
    (∀ t, t ≠ Tier.WARM → ((recoverStuckMigrations 1000 sCrash).1.part t).filter
        (fun r => r.fileName == stuckSrcRec.fileName) = []) ∧
    committedTgtRec.migrationStatus = Status.IDLE ∧
    committedTgtRec.isLocked = false :=
  reconciliation_resolves_interrupted_commit 1000 sCrash Tier.HOT Tier.WARM
    stuckSrcRec committedTgtRec (by decide) rfl (by decide)
    (fun t ht => by cases t <;> first | exact absurd rfl ht | decide)
    (by decide)
    (fun t h1 h2 => by cases t <;> first | exact absurd rfl h1 | exact absurd rfl h2 | decide)
    rfl rfl (by decide) (by decide)
    (fun t h1 h2 => by cases t <;> first | exact absurd rfl h1 | exact absurd rfl h2 | decide)

/-- C9: a FAILED record is never acted on automatically.  The candidate
scan only ever emits records that are IDLE and unlocked (so never a
FAILED one), and — ids being unique per collection, as MongoDB
guarantees — reconciliation preserves every FAILED record exactly as it
stands: its stuck-file query selects only PROCESSING/VERIFYING locked
records and its duplicate query excludes FAILED, so a FAILED object
stays FAILED until an external reset. -/
theorem failed_records_not_acted_on (now : Nat) (s : StoreState)
    (hnd : ∀ t, NodupIds (s.part t)) :
    (∀ c ∈ getFilesForMigration now s,
        c.file.migrationStatus = Status.IDLE ∧ c.file.isLocked = false) ∧
    (∀ t0 r, r ∈ s.part t0 → r.migrationStatus = Status.FAILED →
        r ∈ (recoverStuckMigrations now s).1.part t0) := by
  constructor
  · intro c hc
    unfold getFilesForMigration at hc
    rcases List.mem_append.mp hc with hc1 | hc2
    · rcases List.mem_append.mp hc1 with hh | hw
      · exact (mem_candidatesOf hh).2
      · exact (mem_candidatesOf hw).2
    · exact (mem_candidatesOf hc2).2
  · intro t0 r hr hF
    exact recover_preserves_failed now s hnd hr hF

/-- Closed witness: in a concrete store holding one FAILED record, that
record is still present, untouched, after a reconciliation pass. -/
theorem failed_records_not_acted_on_witness :
    failedRec ∈ (recoverStuckMigrations 1000 sFailed).1.part Tier.HOT :=
  (failed_records_not_acted_on 1000 sFailed
      (fun t => by cases t <;> (unfold NodupIds; decide))).2 Tier.HOT failedRec
    (by decide) rfl

/-- C5 (code bug): `file.retryAttempts += 1` in the catch block mutates
only the in-memory document and is never written back, so with every
attempt failing the step-3 `IntegrityError`, three (and even four)
attempts leave the record IDLE and unlocked with `retryAttempts` still
0 — it is never parked FAILED, and a 4th attempt runs just like the
first three. -/
theorem retry_budget_never_depletes :
    findById (attemptStep (attemptStep (attemptStep badChecksumState))).hot 1
      = some { badChecksumRec with sourceChecksumBeforeMigration := some "DATA" } ∧
    (migrateFile (fun d => d) (fun d => d) 1000 1 "HOT" "WARM"
        (attemptStep (attemptStep (attemptStep badChecksumState)))).1
      = Except.error MigErr.sourceIntegrityFailed := by
  exact ⟨by decide, rfl⟩

end OptiCloud
